import Mathlib

/-!
# autobrr-mediahelper: scrape, parse, reconcile, query

A shallow embedding of `internal/app/autobrrmediahelper/media_manager.go` and
`webserver.go`, followed by theorems about the embedded functions.

Modelling conventions.

* Go `string` is `String`; the regular-expression engine works on `List Char`.
* Go `(T, error)` results are `Except`, except where the source uses the value
  together with a non-nil error (`getFirstNumberFromText`), where the pair is kept.
* Go `float64` is `F64`: sign, integral significand and binary exponent of an IEEE-754
  binary64 number, or an infinity, or NaN.
* A nil pointer is `none`; dereferencing it is the outcome `Outcome.crashed`.
* The HTML document, the network and the SQL engine are outside the repository. A list
  item is represented by the strings the selectors of `ParseMedia` read from it
  (`Fragment`), a `colly` visit by its result (`Visit`), the `media` table by its rows
  and the failures of the SQL engine by an explicit record of which calls fail.
-/

namespace Autobrr

/-! ## Regular expressions

The fragment of Go's `regexp` syntax used by `numberRegex` and `idRegex`, with the
leftmost-first (backtracking-order) semantics of `regexp.MustCompile`. -/

/-- Abstract syntax of the patterns: a literal character, `\d`, concatenation, greedy
`?`, greedy `+` and a capturing group. -/
inductive Re where
  | chr (c : Char)
  | digit
  | seq (a b : Re)
  | opt (a : Re)
  | plus (a : Re)
  | group (a : Re)

/-- Number of capturing groups of a pattern. -/
def Re.groups : Re → Nat
  | .chr _ => 0
  | .digit => 0
  | .seq a b => a.groups + b.groups
  | .opt a => a.groups
  | .plus a => a.groups
  | .group a => a.groups + 1

/-- A way of matching a pattern at a position: the input left after the match and the
text of the capturing groups inside the pattern, in order of their opening bracket. -/
abbrev Thread := List Char × List (List Char)

/-- Greedy iteration of `step`, one or more times: after one iteration, further
iterations are preferred over stopping. An iteration that consumes nothing is not
repeated. `fuel` bounds the number of iterations. -/
def plusLoop (step : List Char → List Thread) : Nat → List Char → List Thread
  | 0, _ => []
  | fuel + 1, s => (step s).flatMap fun t =>
      if t.1.length < s.length then plusLoop step fuel t.1 ++ [t] else [t]

/-- All ways of matching a pattern at the start of the input, in the order a
backtracking matcher tries them; the first one is the match `regexp` reports there.
`\d` is the ASCII class `[0-9]`. -/
def Re.run : Re → List Char → List Thread
  | .chr _, [] => []
  | .chr c, x :: t => if x = c then [(t, [])] else []
  | .digit, [] => []
  | .digit, x :: t => if x.isDigit then [(t, [])] else []
  | .seq a b, s => (a.run s).flatMap fun t => (b.run t.1).map fun u => (u.1, t.2 ++ u.2)
  | .opt a, s => a.run s ++ [(s, List.replicate a.groups [])]
  | .plus a, s => plusLoop (fun r => a.run r) (s.length + 1) s
  | .group a, s => (a.run s).map fun t => (t.1, s.take (s.length - t.1.length) :: t.2)

/-- The match at the start of the input, if any: the submatch list (whole match first,
then the groups) and the input after the match. -/
def Re.matchAt (re : Re) (s : List Char) : Option (List (List Char) × List Char) :=
  match re.run s with
  | [] => none
  | t :: _ => some (s.take (s.length - t.1.length) :: t.2, t.1)

/-- The leftmost match in the input. -/
def Re.search (re : Re) : List Char → Option (List (List Char) × List Char)
  | [] => re.matchAt []
  | c :: t =>
    match re.matchAt (c :: t) with
    | some m => some m
    | none => re.search t

/-- Successive non-overlapping matches, left to right. After an empty match the search
resumes one character later (neither pattern of this program matches the empty
string). -/
def Re.findAll (re : Re) : Nat → List Char → List (List (List Char))
  | 0, _ => []
  | fuel + 1, s =>
    match re.search s with
    | none => []
    | some (m, rest) =>
      m :: (if rest.length < s.length then re.findAll fuel rest
            else match rest with
              | [] => []
              | _ :: t => re.findAll fuel t)

/-- The method `(*Regexp).FindAllStringSubmatch(text, -1)`: every match with its
submatches. -/
def FindAllStringSubmatch (re : Re) (text : String) : List (List String) :=
  (re.findAll (text.data.length + 1) text.data).map fun m => m.map String.mk

/-- The pattern `title/(tt\d+)`. -/
def idRegex : Re :=
  .seq (.chr 't') (.seq (.chr 'i') (.seq (.chr 't') (.seq (.chr 'l') (.seq (.chr 'e')
    (.seq (.chr '/') (.group (.seq (.chr 't') (.seq (.chr 't') (.plus .digit)))))))))

/-- The pattern `(\d+(\.\d+)?)`. -/
def numberRegex : Re :=
  .group (.seq (.plus .digit) (.opt (.group (.seq (.chr '.') (.plus .digit)))))

/-! ## Floating point -/

/-- An IEEE-754 binary64 value. `fin neg m e` is `(-1)^neg * m * 2^e` in the unique
form the format stores: `2^52 ≤ m < 2^53` with `-1074 ≤ e ≤ 971`, or `m < 2^52` with
`e = -1074`. -/
inductive F64 where
  | fin (neg : Bool) (m : Nat) (e : Int)
  | inf (neg : Bool)
  | nan
  deriving DecidableEq, Repr

/-- The constant `-1`. -/
def F64.negOne : F64 := .fin true (2 ^ 52) (-52)

/-- The conversion `int(f)` on a 64-bit platform: truncation toward zero. For a value
outside the range of `int` (where Go leaves the result to the implementation) this is
the amd64 result, the smallest `int`. -/
def F64.toInt : F64 → Int
  | .fin neg m e =>
    let mag : Nat := if 0 ≤ e then m * 2 ^ e.toNat else m / 2 ^ (-e).toNat
    let v : Int := if neg then -(mag : Int) else (mag : Int)
    if -(2 ^ 63 : Int) ≤ v ∧ v < 2 ^ 63 then v else -(2 ^ 63 : Int)
  | .inf _ => -(2 ^ 63 : Int)
  | .nan => -(2 ^ 63 : Int)

/-- The errors of `strconv.ParseFloat`: `ErrSyntax` and `ErrRange`. -/
inductive NumError where
  | syntaxErr
  | rangeErr
  deriving DecidableEq, Repr

/-- Position of the highest set bit: `floor (log2 n)` for `n > 0`, and `0` for `n = 0`.
`fuel` bounds the number of halvings. -/
def log2Floor : Nat → Nat → Nat
  | 0, _ => 0
  | fuel + 1, n => if n < 2 then 0 else log2Floor fuel (n / 2) + 1

/-- The binary64 number nearest to `n / d` (ties to even) for `d > 0`, with the range
error when that number is beyond the largest finite one. -/
def roundBinary64 (n d : Nat) : F64 × Option NumError :=
  if n = 0 then (.fin false 0 (-1074), none)
  else
    let l0 : Int := (log2Floor n n : Int) - (log2Floor d d : Int)
    let reaches : Bool := if 0 ≤ l0 then decide (d * 2 ^ l0.toNat ≤ n)
                          else decide (d ≤ n * 2 ^ (-l0).toNat)
    let fl : Int := if reaches then l0 else l0 - 1
    let e : Int := max (fl - 52) (-1074)
    let num : Nat := if 0 ≤ e then n else n * 2 ^ (-e).toNat
    let den : Nat := if 0 ≤ e then d * 2 ^ e.toNat else d
    let q := num / den
    let r := num % den
    let m := if den < 2 * r ∨ (2 * r = den ∧ q % 2 = 1) then q + 1 else q
    let m1 := if m = 2 ^ 53 then 2 ^ 52 else m
    let e1 := if m = 2 ^ 53 then e + 1 else e
    if 971 < e1 then (.inf false, some .rangeErr) else (.fin false m1 e1, none)

/-- The value of a string of decimal digits. -/
def digitsToNat (ds : List Char) : Nat :=
  ds.foldl (fun a c => 10 * a + (c.toNat - 48)) 0

/-- The function `strconv.ParseFloat(s, 64)` on the inputs `numberRegex` can produce:
decimal digits with an optional fractional part. The other forms `ParseFloat` accepts
(sign, exponent, hexadecimal, infinities, NaN, underscores) are not modelled and are
reported here as a syntax error with value `0`; `getFirstNumberFromText` never passes
one. -/
def ParseFloat (s : String) : F64 × Option NumError :=
  let ip := s.data.takeWhile Char.isDigit
  let rest := s.data.dropWhile Char.isDigit
  match rest with
  | [] => if ip = [] then (.fin false 0 (-1074), some .syntaxErr)
          else roundBinary64 (digitsToNat ip) 1
  | c :: fp =>
    if c = '.' ∧ fp.all Char.isDigit ∧ (ip ≠ [] ∨ fp ≠ []) then
      roundBinary64 (digitsToNat (ip ++ fp)) (10 ^ fp.length)
    else (.fin false 0 (-1074), some .syntaxErr)

/-- The function `getFirstNumberFromText`. -/
def getFirstNumberFromText (text : String) : F64 × Option NumError :=
  let m := FindAllStringSubmatch numberRegex text
  match m with
  | [] => (F64.negOne, none)
  | m0 :: _ =>
    match m0 with
    | [] => (F64.negOne, none)
    | tok :: _ => ParseFloat tok

/-! ## Records and the record parser -/

deriving instance DecidableEq for Except

/-- The type `MediaType`, a string. -/
abbrev MediaType := String

/-- The constant `Movie`. -/
def Movie : MediaType := "movie"

/-- The constant `TVShow`. -/
def TVShow : MediaType := "tv"

/-- The struct `Media` (the field `Type` is named `Typ` here). -/
structure Media where
  Id : String
  Title : String
  Year : Int
  Rank : Int
  Rating : F64
  Typ : MediaType
  Url : String
  deriving DecidableEq, Repr

/-- What `ParseMedia` reads from a `*colly.HTMLElement`, one field per selector call. -/
structure Fragment where
  /-- Result of `element.ChildText(".cli-meter-title-header")`. -/
  rankText : String
  /-- Result of `element.DOM.Find(".ipc-title").Text()`. -/
  title : String
  /-- Result of `titleElement.Find("a").AttrOr("href", "")`. -/
  href : String
  /-- Result of `element.Request.AbsoluteURL(relativeUrl)`. -/
  absoluteURL : String
  /-- Result of
  `element.ChildText(".cli-title-metadata .cli-title-metadata-item:first-child")`. -/
  yearText : String
  /-- Result of `element.ChildText(".cli-ratings-container .ipc-rating-star")`. -/
  ratingText : String
  /-- Result of `element.ChildText(".cli-title-type-data")`. -/
  typeText : String
  deriving DecidableEq, Repr

/-- The errors `ParseMedia` returns, one constructor per `return nil, ...`. -/
inductive ParseError where
  /-- The error "failed to parse rank: ...". -/
  | failedToParseRank (cause : NumError)
  /-- The error "could not fetch url from element". -/
  | couldNotFetchUrl
  /-- The error "could not fetch id from url: " followed by the URL. -/
  | couldNotFetchId (url : String)
  /-- The error "failed to parse media year: ...". -/
  | failedToParseYear (cause : NumError)
  /-- The error "failed to parse media rating: ...". -/
  | failedToParseRating (cause : NumError)
  deriving DecidableEq, Repr

/-- The function `ParseMedia`. -/
def ParseMedia (element : Fragment) (mustParseRank : Bool) : Except ParseError Media :=
  let rank := getFirstNumberFromText element.rankText
  match rank.2, mustParseRank with
  | some err, true => .error (.failedToParseRank err)
  | _, _ =>
    let title := element.title
    let relativeUrl := element.href
    if relativeUrl = "" then .error .couldNotFetchUrl
    else
      let url := element.absoluteURL
      let idMatch := FindAllStringSubmatch idRegex url
      match idMatch with
      | [] => .error (.couldNotFetchId url)
      | m0 :: _ =>
        match m0 with
        | _ :: id :: _ =>
          let year := getFirstNumberFromText element.yearText
          match year.2 with
          | some err => .error (.failedToParseYear err)
          | none =>
            let rating := getFirstNumberFromText element.ratingText
            match rating.2 with
            | some err => .error (.failedToParseRating err)
            | none =>
              let rawMediaType := element.typeText
              let mediaType := if rawMediaType = "TV Series" then TVShow else Movie
              .ok { Id := id, Title := title, Year := year.1.toInt, Rank := rank.1.toInt,
                    Rating := rating.1, Typ := mediaType, Url := url }
        | _ => .error (.couldNotFetchId url)

/-! ## Pages and scraping -/

/-- Result of `c.Visit(url)`: an error, in which case no `OnHTML` callback has run, or
the fetched document as seen through the registered selector. -/
inductive Visit (π : Type) where
  | failed
  | fetched (page : π)

/-- A search result page: the elements selected by
`.ipc-metadata-list .ipc-metadata-list-summary-item:first-child`, in document order. -/
abbrev SearchPage := List Fragment

/-- A listing page: for each `.ipc-metadata-list` element, in document order, its
`.cli-children` elements in document order. -/
abbrev ListingPage := List (List Fragment)

/-- Result of a function that returns normally, returns an error, or dereferences a nil
pointer (a run-time panic). -/
inductive Outcome (ε α : Type) where
  | ok (a : α)
  | error (e : ε)
  | crashed
  deriving DecidableEq, Repr

/-- The errors of `GetMediaIdByNameAndYear`: `MediaNotFoundErr` and the wrapped error of
`c.Visit` ("could search for imdb media: ..."). -/
inductive ResolveError where
  | MediaNotFoundErr
  | couldSearch
  deriving DecidableEq, Repr

/-- The `OnHTML` callback of `GetMediaIdByNameAndYear`: the new value of `mediaId`, or
`none` when `media.Id` is evaluated on the nil `media` of a failed parse. -/
def searchCallback (_mediaId : String) (element : Fragment) : Option String :=
  match ParseMedia element false with
  | .error _ => none
  | .ok media => some media.Id

/-- The method `GetMediaIdByNameAndYear`; `web name year` is the result of visiting the
search URL built from `name` and `year`. -/
def GetMediaIdByNameAndYear (web : String → Int → Visit SearchPage) (name : String)
    (year : Int) : Outcome ResolveError String :=
  match web name year with
  | .failed => .error .couldSearch
  | .fetched page =>
    match page.foldlM searchCallback "" with
    | none => .crashed
    | some mediaId => if mediaId = "" then .error .MediaNotFoundErr else .ok mediaId

/-- The inner callback of `scrapePopularMedia`: appends the pointer `ParseMedia`
returned, which is nil when the parse failed. -/
def scrapeItem (mediaList : List (Option Media)) (element : Fragment) :
    List (Option Media) :=
  match ParseMedia element true with
  | .error _ => mediaList ++ [none]
  | .ok media => mediaList ++ [some media]

/-- The `OnHTML` callback of `scrapePopularMedia` on one `.ipc-metadata-list`. -/
def scrapeList (mediaList : List (Option Media)) (e : List Fragment) :
    List (Option Media) :=
  e.foldl scrapeItem mediaList

/-- The errors of `scrapePopularMedia`. -/
inductive ScrapeError where
  | couldScrapeMovies
  | couldScrapeTVShows
  deriving DecidableEq, Repr

/-- The method `scrapePopularMedia`; `movies` and `tvShows` are the results of the two
visits. -/
def scrapePopularMedia (movies tvShows : Visit ListingPage) :
    Except ScrapeError (List (Option Media)) :=
  match movies with
  | .failed => .error .couldScrapeMovies
  | .fetched p1 =>
    let mediaList := p1.foldl scrapeList []
    match tvShows with
    | .failed => .error .couldScrapeTVShows
    | .fetched p2 => .ok (p2.foldl scrapeList mediaList)

/-! ## The catalog

The `media` table created by `Init`:
`id TEXT PRIMARY KEY, title TEXT NOT NULL, YEAR INTEGER, rank INTEGER,
media_type TEXT CHECK( media_type IN ('movie','tv')) NOT NULL, url TEXT NOT NULL,
rating REAL NOT NULL, metadata_updated_at TIMESTAMP NOT NULL`. -/

/-- A row of the table `media`. -/
structure Row where
  id : String
  title : String
  year : Int
  rank : Int
  media_type : String
  url : String
  rating : F64
  metadata_updated_at : Nat
  deriving DecidableEq, Repr

/-- The committed content of the table `media`, in insertion order. -/
abbrev Table := List Row

/-- Why a statement of `replaceMedia` failed: a constraint of the table, or a failure of
the SQL engine itself (I/O, lock, closed connection). -/
inductive SqlError where
  | uniqueViolation
  | checkViolation
  | notNullViolation
  | engineFailure
  deriving DecidableEq, Repr

/-- Failures of the SQL engine during one call of `replaceMedia`, and its clock:
whether `Begin`, the `DELETE` and `Commit` fail, whether the `INSERT` of the item at a
given position fails, and the value of `CURRENT_TIMESTAMP` during that `INSERT`. -/
structure TxEnv where
  beginFails : Bool
  deleteFails : Bool
  insertFails : Nat → Bool
  commitFails : Bool
  clock : Nat → Nat

/-- The row the `INSERT` statement of `replaceMedia` builds from a record. -/
def Media.toRow (media : Media) (now : Nat) : Row :=
  { id := media.Id, title := media.Title, year := media.Year, rank := media.Rank,
    media_type := media.Typ, url := media.Url, rating := media.Rating,
    metadata_updated_at := now }

/-- The constraints of the table on a new row, in the order SQLite tests them: `NOT NULL`
on `rating` (SQLite stores a NaN as NULL; the other `NOT NULL` columns receive Go
strings, which are never NULL), then the `CHECK` on `media_type`, then the primary key. -/
def checkInsert (t : Table) (r : Row) : Option SqlError :=
  if r.rating = .nan then some .notNullViolation
  else if ¬ (r.media_type = "movie" ∨ r.media_type = "tv") then some .checkViolation
  else if t.any (fun x => x.id == r.id) then some .uniqueViolation
  else none

/-- The loop of `replaceMedia` from position `k` on, inside the transaction whose
working table is `t`: the working table after the last `INSERT`, the first error, or a
crash on a nil entry (`media.Id` with `media == nil`). -/
def insertLoop (env : TxEnv) : Nat → Table → List (Option Media) → Outcome SqlError Table
  | _, t, [] => .ok t
  | _, _, none :: _ => .crashed
  | k, t, some media :: rest =>
    if env.insertFails k then .error .engineFailure
    else
      match checkInsert t (media.toRow (env.clock k)) with
      | some e => .error e
      | none => insertLoop env (k + 1) (t ++ [media.toRow (env.clock k)]) rest

/-- The method `replaceMedia`: its outcome and the committed table afterwards. Every
path that leaves the function before a successful `Commit` runs the deferred
`tx.Rollback()`, also the crash; a failed `Commit` commits nothing. -/
def replaceMedia (db : Table) (env : TxEnv) (mediaList : List (Option Media)) :
    Outcome SqlError Unit × Table :=
  if env.beginFails then (.error .engineFailure, db)
  else if env.deleteFails then (.error .engineFailure, db)
  else
    match insertLoop env 0 [] mediaList with
    | .error e => (.error e, db)
    | .crashed => (.crashed, db)
    | .ok t => if env.commitFails then (.error .engineFailure, db) else (.ok (), t)

/-- Failures of the SQL engine during one call of `ShouldMediaBeDownloaded`: whether
`Query` fails, and whether stepping the statement in `result.Next()` fails (`Next` then
reports `false`; the error stays in `result.Err()`, which the method does not read). -/
structure QueryEnv where
  queryFails : Bool
  nextFails : Bool

/-- The error of `ShouldMediaBeDownloaded`
("could not check if media should be downloaded: ..."). -/
inductive StoreError where
  | couldNotCheck
  deriving DecidableEq, Repr

/-- The method `ShouldMediaBeDownloaded`: `SELECT id FROM media WHERE id = $1`. -/
def ShouldMediaBeDownloaded (db : Table) (env : QueryEnv) (id : String) :
    Except StoreError Bool :=
  if env.queryFails then .error .couldNotCheck
  else .ok (if env.nextFails then false else db.any (fun x => x.id == id))

/-- The errors of `RefreshPopularMedia`. -/
inductive RefreshError where
  | scrape (e : ScrapeError)
  | replace (e : SqlError)
  deriving DecidableEq, Repr

/-- The method `RefreshPopularMedia`: its outcome and the committed table afterwards. -/
def RefreshPopularMedia (db : Table) (movies tvShows : Visit ListingPage) (env : TxEnv) :
    Outcome RefreshError Unit × Table :=
  match scrapePopularMedia movies tvShows with
  | .error e => (.error (.scrape e), db)
  | .ok popularMedia =>
    match replaceMedia db env popularMedia with
    | (.error e, db1) => (.error (.replace e), db1)
    | (.crashed, db1) => (.crashed, db1)
    | (.ok _, db1) => (.ok (), db1)

/-! ## The web handler -/

/-- The fields of `MediaCheckRequest` the handler reads after `BindJSON` succeeded. -/
structure MediaCheckRequest where
  Title : String
  Year : Int
  deriving DecidableEq, Repr

/-- Status code and body written with `c.String`. -/
structure Response where
  status : Nat
  body : String
  deriving DecidableEq, Repr

/-- The handler returned by `mediaCheck` on a bound request, as a function of what the
two methods of the manager return: the response written, or `none` when
`GetMediaIdByNameAndYear` crashed and the handler wrote nothing. -/
def mediaCheckWith (getMediaId : Outcome ResolveError String)
    (shouldMediaBeDownloaded : String → Except StoreError Bool) : Option Response :=
  match getMediaId with
  | .crashed => none
  | .error .MediaNotFoundErr => some ⟨404, "media not found"⟩
  | .error _ => some ⟨500, "failed to search for media"⟩
  | .ok mediaId =>
    match shouldMediaBeDownloaded mediaId with
    | .error _ => some ⟨500, "failed to check if media should be downloaded"⟩
    | .ok false => some ⟨404, "media should not be downloaded"⟩
    | .ok true => some ⟨200, "media should be downloaded"⟩

/-- The handler returned by `mediaCheck(manager)` on a bound request. -/
def mediaCheck (web : String → Int → Visit SearchPage) (db : Table) (env : QueryEnv)
    (req : MediaCheckRequest) : Option Response :=
  mediaCheckWith (GetMediaIdByNameAndYear web req.Title req.Year)
    (ShouldMediaBeDownloaded db env)

/-! ## Specification-side definitions

Definitions that follow the words of the specification, or that name the pieces of a
computation, used to state and prove the properties below. None of them is used by the
embedded functions above. -/

/-- Integer digits and fraction digits of the longest run `digits[.digits]` at the start
of `r`. -/
def numberAt (r : List Char) : List Char × List Char :=
  (r.takeWhile Char.isDigit,
    match r.dropWhile Char.isDigit with
    | '.' :: fr => fr.takeWhile Char.isDigit
    | _ => [])

/-- The leftmost run of the shape `digits[.digits]` in a text, taken as long as possible
where it starts: its integer digits and its fraction digits (none for a run without
fraction). -/
def leftmostNumber (s : List Char) : Option (List Char × List Char) :=
  match s.dropWhile (fun c => !c.isDigit) with
  | [] => none
  | c :: t => some (numberAt (c :: t))

/-- The text of a run given by its integer and fraction digits. -/
def numberText (p : List Char × List Char) : List Char :=
  if p.2 = [] then p.1 else p.1 ++ '.' :: p.2

/-- Input left after the literal `lit` at the start of the input, if it starts with it. -/
def dropLiteral : List Char → List Char → Option (List Char)
  | [], s => some s
  | _ :: _, [] => none
  | c :: cs, x :: s => if x = c then dropLiteral cs s else none

/-- The identifier at the start of the input, when the input starts with `title/tt`
followed by a digit: `tt` and the digits that follow, as far as they go. -/
def titleIdAt (s : List Char) : Option (List Char) :=
  match dropLiteral "title/".data s with
  | none => none
  | some s1 =>
    match dropLiteral "tt".data s1 with
    | some (d :: rest) =>
      if d.isDigit then some ('t' :: 't' :: d :: rest.takeWhile Char.isDigit) else none
    | _ => none

/-- The identifier of the first place in the input where `title/tt<digits>` occurs. -/
def firstTitleId : List Char → Option (List Char)
  | [] => none
  | c :: t =>
    match titleIdAt (c :: t) with
    | some id => some id
    | none => firstTitleId t

/-- The reading of the identifier shape as `title/<alphanumeric-id>`: the longest run of
letters and digits after `title/` at the start of the input, if there is one. -/
def alnumTitleIdAt (s : List Char) : Option (List Char) :=
  match dropLiteral "title/".data s with
  | some (d :: rest) =>
    if d.isAlphanum then some ((d :: rest).takeWhile Char.isAlphanum) else none
  | _ => none

/-- The identifier token of the first segment `title/<alphanumeric-id>` of the input. -/
def firstAlnumTitleId : List Char → Option (List Char)
  | [] => none
  | c :: t =>
    match alnumTitleIdAt (c :: t) with
    | some id => some id
    | none => firstAlnumTitleId t

/-- The pattern `lit` followed by `b`, for a literal string `lit`. -/
def litSeq (lit : List Char) (b : Re) : Re :=
  lit.foldr (fun c r => Re.seq (Re.chr c) r) b

/-- The ways `\d+` matches at the start of the input: every non-empty prefix of the
leading digits, the longest first. -/
def digitSplits : List Char → List Thread
  | [] => []
  | c :: t => if c.isDigit then digitSplits t ++ [(t, [])] else []

/-- The pattern `(\.\d+)`, the optional part of `numberRegex`. -/
abbrev fractionRegex : Re := .group (.seq (.chr '.') (.plus .digit))

/-- Input left after the fractional part `.digits` at the start of `r`, if there is one. -/
def fractionRest : List Char → Option (List Char)
  | '.' :: d :: fr => if d.isDigit then some (fr.dropWhile Char.isDigit) else none
  | _ => none

/-- Input left after the match of `numberRegex` at `c :: t`, for a digit `c`. -/
def numberRest (t : List Char) : List Char :=
  match fractionRest (t.dropWhile Char.isDigit) with
  | some rest => rest
  | none => t.dropWhile Char.isDigit

/-- The rows `replaceMedia` writes for the given records when the first of them is the
item at position `k`. -/
def rowsFrom (env : TxEnv) : Nat → List Media → List Row
  | _, [] => []
  | k, m :: rest => m.toRow (env.clock k) :: rowsFrom env (k + 1) rest

/-- The record a row was written from. -/
def Row.toMedia (r : Row) : Media :=
  { Id := r.id, Title := r.title, Year := r.year, Rank := r.rank, Rating := r.rating,
    Typ := r.media_type, Url := r.url }

/-- The record satisfies the constraints of the table other than the primary key. -/
def Media.storable (m : Media) : Prop :=
  (m.Typ = "movie" ∨ m.Typ = "tv") ∧ m.Rating ≠ F64.nan

instance (m : Media) : Decidable m.storable := by
  unfold Media.storable
  infer_instance

/-- A call of `replaceMedia` during which the SQL engine does not fail. -/
def TxEnv.healthy (env : TxEnv) : Prop :=
  env.beginFails = false ∧ env.deleteFails = false ∧ (∀ k, env.insertFails k = false) ∧
    env.commitFails = false

/-! ## Concrete inputs -/

/-- A list item with every field present. -/
def sampleItem : Fragment :=
  { rankText := "1", title := "1. A", href := "/title/tt1234567/",
    absoluteURL := "https://www.imdb.com/title/tt1234567/", yearText := "2020",
    ratingText := "8.4", typeText := "" }

/-- The record `ParseMedia` returns for `sampleItem`. -/
def sampleRecord : Media :=
  { Id := "tt1234567", Title := "1. A", Year := 2020, Rank := 1,
    Rating := .fin false 4728779608739021 (-49), Typ := "movie",
    Url := "https://www.imdb.com/title/tt1234567/" }

/-- A list item without rank label. -/
def noRankItem : Fragment := { sampleItem with rankText := "" }

/-- A list item without year metadata. -/
def noYearItem : Fragment := { sampleItem with yearText := "" }

/-- A list item whose title has no link. -/
def noLinkItem : Fragment := { sampleItem with href := "", absoluteURL := "" }

/-- A list item whose link has an identifier of letters and digits that is not `tt`
followed by digits. -/
def otherIdItem : Fragment :=
  { sampleItem with href := "/title/nm0000123/",
                    absoluteURL := "https://www.imdb.com/title/nm0000123/" }

/-- A second record with the identifier of `sampleRecord`. -/
def sameIdRecord : Media := { sampleRecord with Title := "2. B", Typ := "tv" }

/-- A record with another identifier. -/
def otherRecord : Media :=
  { sampleRecord with Id := "tt7", Title := "3. C", Url := "https://www.imdb.com/title/tt7/" }

/-- A call of `replaceMedia` without failures, at time `7`. -/
def calmTx : TxEnv :=
  { beginFails := false, deleteFails := false, insertFails := fun _ => false,
    commitFails := false, clock := fun _ => 7 }

/-- A call of `replaceMedia` during which the engine fails on the second `INSERT`. -/
def secondInsertFails : TxEnv :=
  { beginFails := false, deleteFails := false, insertFails := fun k => k == 1,
    commitFails := false, clock := fun _ => 7 }

/-- A call of `ShouldMediaBeDownloaded` without failures. -/
def calmQuery : QueryEnv := { queryFails := false, nextFails := false }

/-- A catalog holding one earlier record. -/
def oldCatalog : Table := [otherRecord.toRow 3]

/-! ## Lemmas about the regular expressions and the number parser -/

theorem plusLoop_digit (s : List Char) :
    ∀ fuel, s.length < fuel → plusLoop (fun r => Re.run .digit r) fuel s = digitSplits s := by
  induction s with
  | nil =>
    intro fuel h
    cases fuel with
    | zero => simp at h
    | succ n => simp [plusLoop, Re.run, digitSplits]
  | cons c t ih =>
    intro fuel h
    cases fuel with
    | zero => simp at h
    | succ n =>
      have hn : t.length < n := by simpa using h
      by_cases hc : c.isDigit
      · simp [plusLoop, Re.run, digitSplits, hc, ih n hn]
      · simp [plusLoop, Re.run, digitSplits, hc]

theorem digitSplits_eq_nil (s : List Char) (h : s.takeWhile Char.isDigit = []) :
    digitSplits s = [] := by
  cases s with
  | nil => rfl
  | cons c t =>
    by_cases hc : c.isDigit
    · simp [List.takeWhile, hc] at h
    · simp [digitSplits, hc]

theorem digitSplits_cons (c : Char) (t : List Char) (hc : c.isDigit = true) :
    ∃ tl, digitSplits (c :: t) = (t.dropWhile Char.isDigit, []) :: tl := by
  induction t generalizing c with
  | nil => exact ⟨[], by simp [digitSplits, hc]⟩
  | cons d t ih =>
    by_cases hd : d.isDigit
    · obtain ⟨tl, htl⟩ := ih d hd
      refine ⟨tl ++ [(d :: t, [])], ?_⟩
      rw [digitSplits, if_pos hc, htl]
      simp [List.dropWhile, hd]
    · refine ⟨[], ?_⟩
      rw [digitSplits, if_pos hc]
      simp [digitSplits, List.dropWhile, hd]

theorem run_seq (a b : Re) (s : List Char) :
    (Re.seq a b).run s =
      (a.run s).flatMap fun t => (b.run t.1).map fun u => (u.1, t.2 ++ u.2) := by
  simp only [Re.run]

theorem run_opt (a : Re) (s : List Char) :
    (Re.opt a).run s = a.run s ++ [(s, List.replicate a.groups [])] := by
  simp only [Re.run]

theorem run_group (a : Re) (s : List Char) :
    (Re.group a).run s =
      (a.run s).map fun t => (t.1, s.take (s.length - t.1.length) :: t.2) := by
  simp only [Re.run]

theorem run_plus_digit (s : List Char) : (Re.plus Re.digit).run s = digitSplits s := by
  simp only [Re.run]
  exact plusLoop_digit s _ (Nat.lt_succ_self _)

theorem fractionRegex_run_none (r : List Char) (h : fractionRest r = none) :
    fractionRegex.run r = [] := by
  unfold fractionRegex
  simp only [Re.run]
  rcases r with _ | ⟨x, fr⟩
  · simp [Re.run]
  · by_cases hx : x = '.'
    · subst hx
      have : digitSplits fr = [] := by
        apply digitSplits_eq_nil
        rcases fr with _ | ⟨d, fr⟩
        · rfl
        · by_cases hd : d.isDigit
          · simp [fractionRest, hd] at h
          · simp [List.takeWhile, hd]
      simp [Re.run, plusLoop_digit _ _ (Nat.lt_succ_self _), this]
    · simp [Re.run, hx]

theorem fractionRegex_run_some (r rest : List Char) (h : fractionRest r = some rest) :
    ∃ caps tl, fractionRegex.run r = (rest, caps) :: tl := by
  rcases r with _ | ⟨x, fr⟩
  · simp [fractionRest] at h
  · rcases fr with _ | ⟨d, fr⟩
    · simp [fractionRest] at h
    · by_cases hx : x = '.'
      · subst hx
        by_cases hd : d.isDigit
        · simp [fractionRest, hd] at h
          obtain ⟨tl, htl⟩ := digitSplits_cons d fr hd
          unfold fractionRegex
          simp only [Re.run]
          simp [plusLoop_digit _ _ (Nat.lt_succ_self _), htl, h]
        · simp [fractionRest, hd] at h
      · have : fractionRest (x :: d :: fr) = none := by
          unfold fractionRest
          split
          · rename_i heq
            simp at heq
            exact absurd heq.1 hx
          · rfl
        rw [this] at h
        cases h

theorem numberRegex_run_digit (c : Char) (t : List Char) (hc : c.isDigit = true) :
    ∃ caps tl, numberRegex.run (c :: t) = (numberRest t, caps) :: tl := by
  obtain ⟨tl, htl⟩ := digitSplits_cons c t hc
  unfold numberRegex
  rw [run_group, run_seq, run_plus_digit, htl, List.flatMap_cons, run_opt]
  unfold numberRest
  cases hfr : fractionRest (t.dropWhile Char.isDigit) with
  | none =>
    rw [fractionRegex_run_none _ hfr]
    simp
  | some rest =>
    obtain ⟨caps, tl2, h2⟩ := fractionRegex_run_some _ _ hfr
    rw [h2]
    simp

theorem numberRegex_run_nondigit (s : List Char) (h : s.takeWhile Char.isDigit = []) :
    numberRegex.run s = [] := by
  unfold numberRegex
  rw [run_group, run_seq, run_plus_digit, digitSplits_eq_nil s h]
  simp


theorem numberAt_fst (r : List Char) : (numberAt r).1 = r.takeWhile Char.isDigit := rfl

theorem numberAt_snd_dot (r fr : List Char) (h : r.dropWhile Char.isDigit = '.' :: fr) :
    (numberAt r).2 = fr.takeWhile Char.isDigit := by
  unfold numberAt
  simp only [h]

theorem numberAt_snd_nil (r : List Char) (h : r.dropWhile Char.isDigit = []) :
    (numberAt r).2 = [] := by
  unfold numberAt
  simp only [h]

theorem numberAt_snd_other (r : List Char) (x : Char) (fr : List Char)
    (h : r.dropWhile Char.isDigit = x :: fr) (hx : x ≠ '.') : (numberAt r).2 = [] := by
  unfold numberAt
  simp only [h]
  split
  · rename_i heq
    simp at heq
    exact absurd heq.1 hx
  · rfl

theorem fractionRest_other (x : Char) (fr : List Char) (hx : x ≠ '.') :
    fractionRest (x :: fr) = none := by
  unfold fractionRest
  split
  · rename_i heq
    simp at heq
    exact absurd heq.1 hx
  · rfl

theorem number_split (c : Char) (t : List Char) (hc : c.isDigit = true) :
    c :: t = numberText (numberAt (c :: t)) ++ numberRest t := by
  have hdw : (c :: t).dropWhile Char.isDigit = t.dropWhile Char.isDigit := by
    simp [List.dropWhile, hc]
  have hsplit : c :: t = (c :: t).takeWhile Char.isDigit ++ t.dropWhile Char.isDigit := by
    rw [← hdw]
    exact (List.takeWhile_append_dropWhile _ _).symm
  unfold numberText numberRest
  rw [numberAt_fst]
  rcases hr : t.dropWhile Char.isDigit with _ | ⟨x, fr⟩
  · rw [numberAt_snd_nil _ (hdw.trans hr)]
    rw [hr] at hsplit
    simpa [fractionRest] using hsplit
  · by_cases hx : x = '.'
    · subst hx
      rw [numberAt_snd_dot _ fr (hdw.trans hr)]
      rw [hr] at hsplit
      rcases fr with _ | ⟨d, fr⟩
      · simpa [fractionRest] using hsplit
      · by_cases hd : d.isDigit
        · simp only [fractionRest, hd, if_true, List.takeWhile]
          simp only [List.cons_ne_nil, if_false, List.append_assoc, List.cons_append]
          rw [List.takeWhile_append_dropWhile]
          exact hsplit
        · simpa [fractionRest, hd, List.takeWhile] using hsplit
    · rw [numberAt_snd_other _ x fr (hdw.trans hr) hx, fractionRest_other x fr hx]
      rw [hr] at hsplit
      simpa using hsplit

theorem take_length_sub (a b : List Char) : (a ++ b).take ((a ++ b).length - b.length) = a := by
  simp

theorem numberRegex_matchAt_digit (c : Char) (t : List Char) (hc : c.isDigit = true) :
    ∃ caps, numberRegex.matchAt (c :: t) =
      some (numberText (numberAt (c :: t)) :: caps, numberRest t) := by
  obtain ⟨caps, tl, h⟩ := numberRegex_run_digit c t hc
  refine ⟨caps, ?_⟩
  unfold Re.matchAt
  rw [h]
  simp only
  have hs := number_split c t hc
  have : (c :: t).take ((c :: t).length - (numberRest t).length) =
      numberText (numberAt (c :: t)) := by
    conv_lhs => rw [hs]
    exact take_length_sub _ _
  rw [this]

theorem numberRegex_matchAt_nondigit (s : List Char) (h : s.takeWhile Char.isDigit = []) :
    numberRegex.matchAt s = none := by
  unfold Re.matchAt
  rw [numberRegex_run_nondigit s h]

theorem numberRegex_search (s : List Char) :
    (leftmostNumber s = none → numberRegex.search s = none) ∧
    (∀ p, leftmostNumber s = some p →
      ∃ caps rest, numberRegex.search s = some (numberText p :: caps, rest)) := by
  induction s with
  | nil =>
    constructor
    · intro _
      simp only [Re.search]
      exact numberRegex_matchAt_nondigit [] rfl
    · intro p hp
      simp [leftmostNumber] at hp
  | cons c t ih =>
    by_cases hc : c.isDigit
    · have hl : leftmostNumber (c :: t) = some (numberAt (c :: t)) := by
        simp [leftmostNumber, List.dropWhile, hc]
      obtain ⟨caps, hm⟩ := numberRegex_matchAt_digit c t hc
      constructor
      · intro h
        rw [hl] at h
        cases h
      · intro p hp
        rw [hl] at hp
        cases hp
        exact ⟨caps, numberRest t, by simp only [Re.search, hm]⟩
    · have hl : leftmostNumber (c :: t) = leftmostNumber t := by
        simp [leftmostNumber, List.dropWhile, hc]
      have hm : numberRegex.matchAt (c :: t) = none :=
        numberRegex_matchAt_nondigit _ (by simp [List.takeWhile, hc])
      rw [hl]
      simp only [Re.search, hm]
      exact ih

theorem findAll_numberRegex (text : String) :
    (leftmostNumber text.data = none → FindAllStringSubmatch numberRegex text = []) ∧
    (∀ p, leftmostNumber text.data = some p →
      ∃ caps tl, FindAllStringSubmatch numberRegex text =
        (String.mk (numberText p) :: caps) :: tl) := by
  obtain ⟨h1, h2⟩ := numberRegex_search text.data
  constructor
  · intro h
    simp [FindAllStringSubmatch, Re.findAll, h1 h]
  · intro p hp
    obtain ⟨caps, rest, h⟩ := h2 p hp
    simp [FindAllStringSubmatch, Re.findAll, h]

theorem getFirstNumberFromText_eq (text : String) :
    getFirstNumberFromText text =
      match leftmostNumber text.data with
      | none => (F64.negOne, none)
      | some p => ParseFloat (String.mk (numberText p)) := by
  obtain ⟨h1, h2⟩ := findAll_numberRegex text
  cases hl : leftmostNumber text.data with
  | none => simp [getFirstNumberFromText, h1 hl]
  | some p =>
    obtain ⟨caps, tl, h⟩ := h2 p hl
    simp [getFirstNumberFromText, h]


theorem run_chr_seq_nil (c : Char) (b : Re) : (Re.seq (Re.chr c) b).run [] = [] := by
  simp [Re.run]

theorem run_chr_seq_cons (c x : Char) (b : Re) (t : List Char) :
    (Re.seq (Re.chr c) b).run (x :: t) = if x = c then b.run t else [] := by
  by_cases h : x = c
  · simp [Re.run, h]
  · simp [Re.run, h]

theorem run_litSeq (lit : List Char) (b : Re) :
    ∀ s, (litSeq lit b).run s =
      match dropLiteral lit s with
      | some rest => b.run rest
      | none => [] := by
  induction lit with
  | nil => intro s; simp [litSeq, dropLiteral]
  | cons c cs ih =>
    intro s
    cases s with
    | nil =>
      show (Re.seq (Re.chr c) (litSeq cs b)).run [] = _
      rw [run_chr_seq_nil]
      simp [dropLiteral]
    | cons x t =>
      show (Re.seq (Re.chr c) (litSeq cs b)).run (x :: t) = _
      rw [run_chr_seq_cons]
      by_cases h : x = c
      · simp [dropLiteral, h, ih t]
      · simp [dropLiteral, h]

theorem idRegex_eq :
    idRegex = litSeq "title/".data (Re.group (litSeq "tt".data (Re.plus Re.digit))) := rfl

theorem dropLiteral_some (lit : List Char) :
    ∀ s rest, dropLiteral lit s = some rest → s = lit ++ rest := by
  induction lit with
  | nil => intro s rest h; simp [dropLiteral] at h; simp [h]
  | cons c cs ih =>
    intro s rest h
    cases s with
    | nil => simp [dropLiteral] at h
    | cons x t =>
      by_cases hx : x = c
      · simp [dropLiteral, hx] at h
        simp [hx, ih t rest h]
      · simp [dropLiteral, hx] at h

theorem idRegex_run_none (s : List Char) (h : titleIdAt s = none) : idRegex.run s = [] := by
  rw [idRegex_eq, run_litSeq]
  unfold titleIdAt at h
  cases h1 : dropLiteral "title/".data s with
  | none => rfl
  | some s1 =>
    simp only [h1] at h
    simp only
    rw [run_group, run_litSeq]
    cases h2 : dropLiteral "tt".data s1 with
    | none => simp
    | some r =>
      simp only [h2] at h
      simp only [run_plus_digit]
      rcases r with _ | ⟨d, rest⟩
      · simp [digitSplits]
      · by_cases hd : d.isDigit
        · simp [hd] at h
        · simp [digitSplits, hd]

theorem idRegex_run_some (s id : List Char) (h : titleIdAt s = some id) :
    ∃ rest tl, idRegex.run s = (rest, [id]) :: tl := by
  rw [idRegex_eq, run_litSeq]
  unfold titleIdAt at h
  cases h1 : dropLiteral "title/".data s with
  | none => simp only [h1] at h; cases h
  | some s1 =>
    simp only [h1] at h
    simp only
    rw [run_group, run_litSeq]
    cases h2 : dropLiteral "tt".data s1 with
    | none => simp only [h2] at h; cases h
    | some r =>
      simp only [h2] at h
      simp only [run_plus_digit]
      rcases r with _ | ⟨d, rest⟩
      · cases h
      · by_cases hd : d.isDigit
        · simp [hd] at h
          obtain ⟨tl, htl⟩ := digitSplits_cons d rest hd
          have hs1 := dropLiteral_some _ _ _ h2
          refine ⟨rest.dropWhile Char.isDigit, tl.map fun t =>
            (t.1, s1.take (s1.length - t.1.length) :: t.2), ?_⟩
          rw [htl]
          simp only [List.map_cons, List.cons.injEq, Prod.mk.injEq, true_and, and_true]
          have hsplit : s1 = ('t' :: 't' :: d :: rest.takeWhile Char.isDigit) ++
              rest.dropWhile Char.isDigit := by
            rw [hs1]
            simp
          rw [← h]
          conv_lhs => rw [hsplit]
          exact take_length_sub _ _
        · simp [hd] at h

theorem idRegex_search (s : List Char) :
    (firstTitleId s = none → idRegex.search s = none) ∧
    (∀ id, firstTitleId s = some id →
      ∃ whole rest, idRegex.search s = some ([whole, id], rest)) := by
  induction s with
  | nil =>
    constructor
    · intro _
      simp only [Re.search, Re.matchAt, idRegex_run_none [] rfl]
    · intro id h
      simp [firstTitleId] at h
  | cons c t ih =>
    cases hat : titleIdAt (c :: t) with
    | none =>
      have hl : firstTitleId (c :: t) = firstTitleId t := by
        simp [firstTitleId, hat]
      rw [hl]
      simp only [Re.search, Re.matchAt, idRegex_run_none _ hat]
      exact ih
    | some id0 =>
      have hl : firstTitleId (c :: t) = some id0 := by
        simp [firstTitleId, hat]
      obtain ⟨rest, tl, hr⟩ := idRegex_run_some _ _ hat
      rw [hl]
      constructor
      · intro h; cases h
      · intro id h
        cases h
        exact ⟨(c :: t).take ((c :: t).length - rest.length), rest,
          by simp only [Re.search, Re.matchAt, hr]⟩

theorem findAll_idRegex (url : String) :
    (firstTitleId url.data = none → FindAllStringSubmatch idRegex url = []) ∧
    (∀ id, firstTitleId url.data = some id →
      ∃ whole tl, FindAllStringSubmatch idRegex url = [whole, String.mk id] :: tl) := by
  obtain ⟨h1, h2⟩ := idRegex_search url.data
  constructor
  · intro h
    simp [FindAllStringSubmatch, Re.findAll, h1 h]
  · intro id hid
    obtain ⟨whole, rest, h⟩ := h2 id hid
    simp [FindAllStringSubmatch, Re.findAll, h]


theorem takeWhile_append_stop (p : Char → Bool) (l r : List Char) (hl : ∀ c ∈ l, p c = true)
    (hr : r.takeWhile p = []) : (l ++ r).takeWhile p = l := by
  induction l with
  | nil => simpa using hr
  | cons c t ih =>
    have hc : p c = true := hl c (List.mem_cons_self _ _)
    have ht : ∀ x ∈ t, p x = true := fun x hx => hl x (List.mem_cons_of_mem _ hx)
    simp [List.takeWhile, hc, ih ht]

theorem dropWhile_append_stop (p : Char → Bool) (l r : List Char) (hl : ∀ c ∈ l, p c = true)
    (hr : r.takeWhile p = []) : (l ++ r).dropWhile p = r := by
  induction l with
  | nil =>
    cases r with
    | nil => rfl
    | cons x t =>
      by_cases hx : p x
      · simp [List.takeWhile, hx] at hr
      · simp [List.dropWhile, hx]
  | cons c t ih =>
    have hc : p c = true := hl c (List.mem_cons_self _ _)
    have ht : ∀ x ∈ t, p x = true := fun x hx => hl x (List.mem_cons_of_mem _ hx)
    simp [List.dropWhile, hc, ih ht]

theorem takeWhile_all (p : Char → Bool) (l : List Char) : ∀ c ∈ l.takeWhile p, p c = true :=
  fun _ hc => (List.mem_takeWhile_imp hc)

theorem ParseFloat_text (ip fp : List Char) (hip : ∀ x ∈ ip, Char.isDigit x = true)
    (hne : ip ≠ []) (hfp : ∀ x ∈ fp, Char.isDigit x = true) :
    ParseFloat (String.mk (numberText (ip, fp))) =
      roundBinary64 (digitsToNat (ip ++ fp)) (10 ^ fp.length) := by
  unfold numberText
  by_cases hfe : fp = []
  · subst hfe
    have h1 : ip.takeWhile Char.isDigit = ip := by
      simpa using takeWhile_append_stop Char.isDigit ip [] hip rfl
    have h2 : ip.dropWhile Char.isDigit = [] := by
      simpa using dropWhile_append_stop Char.isDigit ip [] hip rfl
    simp [ParseFloat, h1, h2, hne]
  · have hstop : ('.' :: fp).takeWhile Char.isDigit = [] := by
      have : Char.isDigit '.' = false := by decide
      simp [List.takeWhile, this]
    have h1 := takeWhile_append_stop Char.isDigit ip ('.' :: fp) hip hstop
    have h2 := dropWhile_append_stop Char.isDigit ip ('.' :: fp) hip hstop
    simp only [if_neg hfe, ParseFloat, h1, h2]
    have hall : fp.all Char.isDigit = true := by
      simpa [List.all_eq_true] using hfp
    simp [hall, hne]

theorem ParseFloat_numberText (c : Char) (t : List Char) (hc : c.isDigit = true) :
    ParseFloat (String.mk (numberText (numberAt (c :: t)))) =
      roundBinary64 (digitsToNat ((numberAt (c :: t)).1 ++ (numberAt (c :: t)).2))
        (10 ^ (numberAt (c :: t)).2.length) := by
  have hip : ∀ x ∈ (numberAt (c :: t)).1, Char.isDigit x = true := takeWhile_all _ _
  have hne : (numberAt (c :: t)).1 ≠ [] := by
    simp [numberAt, List.takeWhile, hc]
  have hfp : ∀ x ∈ (numberAt (c :: t)).2, Char.isDigit x = true := by
    unfold numberAt
    simp only
    split
    · exact takeWhile_all _ _
    · intro x hx; cases hx
  exact ParseFloat_text _ _ hip hne hfp

theorem leftmostNumber_none_iff (s : List Char) :
    leftmostNumber s = none ↔ ∀ c ∈ s, c.isDigit = false := by
  unfold leftmostNumber
  constructor
  · intro h
    split at h
    · rename_i heq
      rw [List.dropWhile_eq_nil_iff] at heq
      intro c hc
      simpa using heq c hc
    · cases h
  · intro h
    have : s.dropWhile (fun c => !c.isDigit) = [] := by
      rw [List.dropWhile_eq_nil_iff]
      intro c hc
      simp [h c hc]
    rw [this]

theorem leftmostNumber_some (s : List Char) (p : List Char × List Char)
    (h : leftmostNumber s = some p) :
    ParseFloat (String.mk (numberText p)) =
      roundBinary64 (digitsToNat (p.1 ++ p.2)) (10 ^ p.2.length) := by
  unfold leftmostNumber at h
  split at h
  · cases h
  · rename_i c t heq
    have hc : c.isDigit = true := by
      have := List.head_dropWhile_not (fun c => !c.isDigit) s
      simp [heq] at this
      exact this
    cases h
    exact ParseFloat_numberText c t hc

theorem getFirstNumberFromText_value (text : String) :
    getFirstNumberFromText text =
      match leftmostNumber text.data with
      | none => (F64.negOne, none)
      | some p => roundBinary64 (digitsToNat (p.1 ++ p.2)) (10 ^ p.2.length) := by
  rw [getFirstNumberFromText_eq]
  cases h : leftmostNumber text.data with
  | none => rfl
  | some p => exact leftmostNumber_some _ _ h


theorem pack_cases (c : Prop) [Decidable c] (m : Nat) (e : Int) :
    (if c then ((F64.inf false, some NumError.rangeErr) : F64 × Option NumError)
      else (F64.fin false m e, none)) = (.inf false, some .rangeErr) ∨
    ∃ m1 e1, (if c then ((F64.inf false, some NumError.rangeErr) : F64 × Option NumError)
      else (F64.fin false m e, none)) = (.fin false m1 e1, none) := by
  split
  · left; rfl
  · right; exact ⟨_, _, rfl⟩

theorem roundBinary64_cases (n d : Nat) :
    roundBinary64 n d = (.inf false, some .rangeErr) ∨
      ∃ m e, roundBinary64 n d = (.fin false m e, none) := by
  unfold roundBinary64
  split
  · right
    exact ⟨0, -1074, rfl⟩
  · exact pack_cases _ _ _

theorem log2Floor_bounds : ∀ (fuel n : Nat), n ≤ fuel → 0 < n →
    2 ^ log2Floor fuel n ≤ n ∧ n < 2 ^ (log2Floor fuel n + 1) := by
  intro fuel
  induction fuel with
  | zero => intro n h1 h2; omega
  | succ f ih =>
    intro n h1 h2
    unfold log2Floor
    by_cases hn : n < 2
    · simp only [if_pos hn]
      constructor
      · simpa using h2
      · simpa using hn
    · simp only [if_neg hn]
      have hdiv : n / 2 ≤ f := by omega
      have hpos : 0 < n / 2 := by omega
      obtain ⟨a, b⟩ := ih (n / 2) hdiv hpos
      constructor
      · rw [pow_succ]
        omega
      · rw [pow_succ]
        omega

theorem roundBinary64_small_eq (n k : Nat) (h0 : n ≠ 0) (hkk : log2Floor n n = k)
    (hlo : 2 ^ k ≤ n) (hhi : n < 2 ^ (k + 1)) (hk : k ≤ 52) :
    roundBinary64 n 1 = (.fin false (n * 2 ^ (52 - k)) ((k : Int) - 52), none) := by
  have hone : log2Floor 1 1 = 0 := by decide
  have hm : n * 2 ^ (52 - k) < 2 ^ 53 := by
    calc n * 2 ^ (52 - k) < 2 ^ (k + 1) * 2 ^ (52 - k) :=
          Nat.mul_lt_mul_of_pos_right hhi (by positivity)
      _ = 2 ^ 53 := by rw [← pow_add]; congr 1; omega
  have hmax : max ((k : Int) - 52) (-1074) = (k : Int) - 52 := by
    apply max_eq_left
    omega
  unfold roundBinary64
  simp only [if_neg h0, hkk, hone]
  simp only [Nat.cast_zero, sub_zero, Nat.cast_nonneg, if_true, Int.toNat_ofNat, one_mul,
    hlo, decide_True, hmax]
  by_cases h52 : k = 52
  · subst h52
    simp at hm ⊢
    have hne : n ≠ 9007199254740992 := by omega
    simp [Nat.mod_one, hne]
  · have hneg : ¬ (0 : Int) ≤ (k : Int) - 52 := by omega
    have hto : (-((k : Int) - 52)).toNat = 52 - k := by omega
    simp only [hneg, if_false, hto, Nat.div_one, Nat.mod_one]
    have hm1 : n * 2 ^ (52 - k) < 9007199254740992 := by
      have : (2 : Nat) ^ 53 = 9007199254740992 := by norm_num
      rw [this] at hm
      exact hm
    have hne : n * 2 ^ (52 - k) ≠ 9007199254740992 := Nat.ne_of_lt hm1
    have hsmall : ¬ (971 : Int) < (k : Int) - 52 := by omega
    simp [hne, hsmall]

theorem toInt_small (n k : Nat) (hk : k ≤ 52) (hn : n < 2 ^ 53) :
    (F64.fin false (n * 2 ^ (52 - k)) ((k : Int) - 52)).toInt = n := by
  unfold F64.toInt
  have hmag : (if (0 : Int) ≤ (k : Int) - 52 then n * 2 ^ (52 - k) * 2 ^ ((k : Int) - 52).toNat
      else n * 2 ^ (52 - k) / 2 ^ (-((k : Int) - 52)).toNat) = n := by
    by_cases h52 : k = 52
    · subst h52
      simp
    · have hneg : ¬ (0 : Int) ≤ (k : Int) - 52 := by omega
      have hto : (-((k : Int) - 52)).toNat = 52 - k := by omega
      rw [if_neg hneg, hto]
      exact Nat.mul_div_cancel _ (by positivity)
  simp only [hmag, Bool.false_eq_true, if_false]
  have : (n : Int) < 2 ^ 63 := by
    have : (n : Int) < 2 ^ 53 := by exact_mod_cast hn
    omega
  rw [if_pos]
  constructor
  · omega
  · exact this

theorem roundBinary64_small (n : Nat) (h : n < 2 ^ 53) :
    (roundBinary64 n 1).2 = none ∧ (roundBinary64 n 1).1.toInt = n := by
  by_cases h0 : n = 0
  · subst h0
    refine ⟨rfl, ?_⟩
    show (F64.fin false 0 (-1074)).toInt = 0
    unfold F64.toInt
    simp only [Nat.zero_mul, Nat.zero_div, ite_self, Bool.false_eq_true, if_false]
    norm_num
  · have hpos : 0 < n := Nat.pos_of_ne_zero h0
    obtain ⟨hlo, hhi⟩ := log2Floor_bounds n n le_rfl hpos
    have hk : log2Floor n n ≤ 52 := by
      by_contra hc
      have : 2 ^ 53 ≤ 2 ^ log2Floor n n := Nat.pow_le_pow_right (by norm_num) (by omega)
      omega
    rw [roundBinary64_small_eq n _ h0 rfl hlo hhi hk]
    exact ⟨rfl, toInt_small n _ hk h⟩

theorem roundBinary64_examples :
    roundBinary64 1 10 = (.fin false 7205759403792794 (-56), none) ∧
    roundBinary64 84 10 = (.fin false 4728779608739021 (-49), none) ∧
    roundBinary64 (2 ^ 53 + 1) 1 = (.fin false (2 ^ 52) 1, none) ∧
    roundBinary64 (2 ^ 53 + 3) 1 = (.fin false (2 ^ 52 + 2) 1, none) ∧
    roundBinary64 0 1 = (.fin false 0 (-1074), none) := by
  refine ⟨by decide, by decide, by decide, by decide, by decide⟩

theorem getFirstNumberFromText_cases (text : String) :
    getFirstNumberFromText text = (F64.negOne, none) ∧ leftmostNumber text.data = none ∨
    getFirstNumberFromText text = (.inf false, some .rangeErr) ∧
      leftmostNumber text.data ≠ none ∨
    ∃ m e, getFirstNumberFromText text = (.fin false m e, none) ∧
      leftmostNumber text.data ≠ none := by
  rw [getFirstNumberFromText_value]
  cases h : leftmostNumber text.data with
  | none => left; exact ⟨rfl, rfl⟩
  | some p =>
    right
    rcases roundBinary64_cases (digitsToNat (p.1 ++ p.2)) (10 ^ p.2.length) with h1 | ⟨m, e, h1⟩
    · left; exact ⟨h1, by simp⟩
    · right; exact ⟨m, e, h1, by simp⟩

theorem int64_clamp_ne (mag : Nat) :
    (if -(2 ^ 63 : Int) ≤ (mag : Int) ∧ (mag : Int) < 2 ^ 63 then (mag : Int)
      else -(2 ^ 63 : Int)) ≠ -1 := by
  split
  · omega
  · norm_num

theorem toInt_nonneg_ne (m : Nat) (e : Int) : (F64.fin false m e).toInt ≠ -1 := by
  unfold F64.toInt
  simp only [Bool.false_eq_true, if_false]
  exact int64_clamp_ne _

theorem toInt_negOne : F64.negOne.toInt = -1 := by decide

theorem ParseMedia_eq (f : Fragment) (b : Bool) :
    ParseMedia f b =
      match (getFirstNumberFromText f.rankText).2, b with
      | some err, true => .error (.failedToParseRank err)
      | _, _ =>
        if f.href = "" then .error .couldNotFetchUrl
        else
          match firstTitleId f.absoluteURL.data with
          | none => .error (.couldNotFetchId f.absoluteURL)
          | some id =>
            match (getFirstNumberFromText f.yearText).2 with
            | some err => .error (.failedToParseYear err)
            | none =>
              match (getFirstNumberFromText f.ratingText).2 with
              | some err => .error (.failedToParseRating err)
              | none =>
                .ok { Id := String.mk id, Title := f.title,
                      Year := (getFirstNumberFromText f.yearText).1.toInt,
                      Rank := (getFirstNumberFromText f.rankText).1.toInt,
                      Rating := (getFirstNumberFromText f.ratingText).1,
                      Typ := if f.typeText = "TV Series" then TVShow else Movie,
                      Url := f.absoluteURL } := by
  obtain ⟨h1, h2⟩ := findAll_idRegex f.absoluteURL
  unfold ParseMedia
  generalize getFirstNumberFromText f.rankText = rk
  rcases rk with ⟨rv, re⟩
  have key : (if f.href = "" then (Except.error ParseError.couldNotFetchUrl : Except ParseError Media)
      else
        match FindAllStringSubmatch idRegex f.absoluteURL with
        | [] => .error (.couldNotFetchId f.absoluteURL)
        | m0 :: _ =>
          match m0 with
          | _ :: id :: _ =>
            match (getFirstNumberFromText f.yearText).2 with
            | some err => .error (.failedToParseYear err)
            | none =>
              match (getFirstNumberFromText f.ratingText).2 with
              | some err => .error (.failedToParseRating err)
              | none =>
                .ok { Id := id, Title := f.title,
                      Year := (getFirstNumberFromText f.yearText).1.toInt,
                      Rank := rv.toInt,
                      Rating := (getFirstNumberFromText f.ratingText).1,
                      Typ := if f.typeText = "TV Series" then TVShow else Movie,
                      Url := f.absoluteURL }
          | _ => .error (.couldNotFetchId f.absoluteURL)) =
      (if f.href = "" then .error .couldNotFetchUrl
        else
          match firstTitleId f.absoluteURL.data with
          | none => .error (.couldNotFetchId f.absoluteURL)
          | some id =>
            match (getFirstNumberFromText f.yearText).2 with
            | some err => .error (.failedToParseYear err)
            | none =>
              match (getFirstNumberFromText f.ratingText).2 with
              | some err => .error (.failedToParseRating err)
              | none =>
                .ok { Id := String.mk id, Title := f.title,
                      Year := (getFirstNumberFromText f.yearText).1.toInt,
                      Rank := rv.toInt,
                      Rating := (getFirstNumberFromText f.ratingText).1,
                      Typ := if f.typeText = "TV Series" then TVShow else Movie,
                      Url := f.absoluteURL }) := by
    by_cases hh : f.href = ""
    · simp only [if_pos hh]
    · simp only [if_neg hh]
      cases hid : firstTitleId f.absoluteURL.data with
      | none => simp only [h1 hid]
      | some id =>
        obtain ⟨whole, tl, h⟩ := h2 id hid
        simp only [h]
  cases re with
  | none => cases b <;> exact key
  | some err =>
    cases b with
    | true => rfl
    | false => exact key

/-! ## Lemmas about the catalog -/

theorem rowsFrom_ids (env : TxEnv) (records : List Media) :
    ∀ k, (rowsFrom env k records).map Row.id = records.map Media.Id := by
  induction records with
  | nil => intro k; rfl
  | cons m rest ih => intro k; simp [rowsFrom, Media.toRow, ih (k + 1)]

theorem rowsFrom_toMedia (env : TxEnv) (records : List Media) :
    ∀ k, (rowsFrom env k records).map Row.toMedia = records := by
  induction records with
  | nil => intro k; rfl
  | cons m rest ih => intro k; simp [rowsFrom, Media.toRow, Row.toMedia, ih (k + 1)]

theorem checkInsert_none_iff (t : Table) (m : Media) (now : Nat) :
    checkInsert t (m.toRow now) = none ↔ (∀ r ∈ t, r.id ≠ m.Id) ∧ m.storable := by
  unfold checkInsert Media.storable
  by_cases h3 : (m.toRow now).rating = F64.nan
  · simp only [h3, if_true]
    constructor
    · intro h; cases h
    · rintro ⟨-, -, h⟩
      exact absurd h3 h
  · simp only [h3, if_false]
    by_cases h2 : (m.toRow now).media_type = "movie" ∨ (m.toRow now).media_type = "tv"
    · simp only [h2, not_true_eq_false, if_false]
      by_cases h1 : t.any (fun x => x.id == (m.toRow now).id) = true
      · simp only [h1, if_true]
        constructor
        · intro h; cases h
        · rintro ⟨h, -⟩
          rw [List.any_eq_true] at h1
          obtain ⟨r, hr, he⟩ := h1
          exact absurd (by simpa [Media.toRow] using he) (h r hr)
      · have hall : ∀ r ∈ t, r.id ≠ m.Id := by
          intro r hr he
          apply h1
          rw [List.any_eq_true]
          exact ⟨r, hr, by simp [Media.toRow, he]⟩
        simp only [h1]
        constructor
        · intro _
          exact ⟨hall, h2, h3⟩
        · intro _
          rfl
    · simp only [h2, not_false_eq_true, if_true]
      constructor
      · intro h; cases h
      · rintro ⟨-, h, -⟩
        exact absurd h h2

theorem insertLoop_records (env : TxEnv) (records : List Media) :
    ∀ (k : Nat) (t : Table),
      (((∀ i, i < records.length → env.insertFails (k + i) = false) ∧
          (∀ m ∈ records, m.storable) ∧ (records.map Media.Id).Nodup ∧
          (∀ m ∈ records, ∀ r ∈ t, r.id ≠ m.Id)) →
        insertLoop env k t (records.map some) = .ok (t ++ rowsFrom env k records)) ∧
      (¬ ((∀ i, i < records.length → env.insertFails (k + i) = false) ∧
          (∀ m ∈ records, m.storable) ∧ (records.map Media.Id).Nodup ∧
          (∀ m ∈ records, ∀ r ∈ t, r.id ≠ m.Id)) →
        ∃ e, insertLoop env k t (records.map some) = .error e) := by
  induction records with
  | nil =>
    intro k t
    constructor
    · intro _
      simp [insertLoop, rowsFrom]
    · intro h
      exact absurd (by simp) h
  | cons m rest ih =>
    intro k t
    have hstep : insertLoop env k t ((m :: rest).map some) =
        if env.insertFails k then .error .engineFailure
        else
          match checkInsert t (m.toRow (env.clock k)) with
          | some e => .error e
          | none => insertLoop env (k + 1) (t ++ [m.toRow (env.clock k)]) (rest.map some) := by
      rfl
    rw [hstep]
    by_cases hf : env.insertFails k = true
    · simp only [hf, if_true]
      constructor
      · rintro ⟨h1, -⟩
        have := h1 0 (by simp)
        simp [hf] at this
      · intro _
        exact ⟨_, rfl⟩
    · have hf' : env.insertFails k = false := by simpa using hf
      simp only [hf', Bool.false_eq_true, if_false]
      cases hci : checkInsert t (m.toRow (env.clock k)) with
      | some e =>
        simp only
        constructor
        · rintro ⟨-, h2, -, h4⟩
          have : checkInsert t (m.toRow (env.clock k)) = none :=
            (checkInsert_none_iff t m _).2
              ⟨h4 m (List.mem_cons_self _ _), h2 m (List.mem_cons_self _ _)⟩
          rw [this] at hci
          cases hci
        · intro _
          exact ⟨e, rfl⟩
      | none =>
        simp only
        obtain ⟨hfresh, hst⟩ := (checkInsert_none_iff t m _).1 hci
        obtain ⟨ih1, ih2⟩ := ih (k + 1) (t ++ [m.toRow (env.clock k)])
        have hequiv :
            ((∀ i, i < (m :: rest).length → env.insertFails (k + i) = false) ∧
              (∀ x ∈ m :: rest, x.storable) ∧ ((m :: rest).map Media.Id).Nodup ∧
              (∀ x ∈ m :: rest, ∀ r ∈ t, r.id ≠ x.Id)) ↔
            ((∀ i, i < rest.length → env.insertFails (k + 1 + i) = false) ∧
              (∀ x ∈ rest, x.storable) ∧ (rest.map Media.Id).Nodup ∧
              (∀ x ∈ rest, ∀ r ∈ t ++ [m.toRow (env.clock k)], r.id ≠ x.Id)) := by
          constructor
          · rintro ⟨h1, h2, h3, h4⟩
            refine ⟨?_, ?_, ?_, ?_⟩
            · intro i hi
              have := h1 (i + 1) (by simpa using hi)
              rwa [show k + (i + 1) = k + 1 + i by omega] at this
            · intro x hx
              exact h2 x (List.mem_cons_of_mem _ hx)
            · simp only [List.map_cons, List.nodup_cons] at h3
              exact h3.2
            · intro x hx r hr
              rcases List.mem_append.1 hr with hr | hr
              · exact h4 x (List.mem_cons_of_mem _ hx) r hr
              · simp only [List.mem_singleton] at hr
                subst hr
                simp only [List.map_cons, List.nodup_cons] at h3
                intro he
                apply h3.1
                rw [List.mem_map]
                exact ⟨x, hx, by simpa [Media.toRow] using he.symm⟩
          · rintro ⟨h1, h2, h3, h4⟩
            refine ⟨?_, ?_, ?_, ?_⟩
            · intro i hi
              cases i with
              | zero => simpa using hf'
              | succ j =>
                have := h1 j (by simpa using hi)
                rwa [show k + 1 + j = k + (j + 1) by omega] at this
            · intro x hx
              rcases List.mem_cons.1 hx with hx | hx
              · subst hx; exact hst
              · exact h2 x hx
            · simp only [List.map_cons, List.nodup_cons]
              refine ⟨?_, h3⟩
              intro hmem
              rw [List.mem_map] at hmem
              obtain ⟨x, hx, he⟩ := hmem
              exact h4 x hx (m.toRow (env.clock k)) (by simp) (by simpa [Media.toRow] using he.symm)
            · intro x hx r hr
              rcases List.mem_cons.1 hx with hx | hx
              · subst hx; exact hfresh r hr
              · exact h4 x hx r (List.mem_append_left _ hr)
        constructor
        · intro h
          rw [ih1 (hequiv.1 h)]
          simp [rowsFrom]
        · intro h
          exact ih2 (fun h' => h (hequiv.2 h'))

theorem insertLoop_ok_records (env : TxEnv) (l : List (Option Media)) :
    ∀ (k : Nat) (t t1 : Table), insertLoop env k t l = .ok t1 →
      ∃ records : List Media, l = records.map some := by
  induction l with
  | nil => intro k t t1 _; exact ⟨[], rfl⟩
  | cons o rest ih =>
    intro k t t1 h
    cases o with
    | none => simp [insertLoop] at h
    | some m =>
      have hstep : insertLoop env k t (some m :: rest) =
          if env.insertFails k then .error .engineFailure
          else
            match checkInsert t (m.toRow (env.clock k)) with
            | some e => .error e
            | none => insertLoop env (k + 1) (t ++ [m.toRow (env.clock k)]) rest := by
        rfl
      rw [hstep] at h
      by_cases hf : env.insertFails k = true
      · simp [hf] at h
      · simp only [hf, if_false] at h
        cases hci : checkInsert t (m.toRow (env.clock k)) with
        | some e => simp [hci] at h
        | none =>
          simp only [hci] at h
          obtain ⟨records, hr⟩ := ih _ _ _ h
          exact ⟨m :: records, by simp [hr]⟩

/-! ## Supporting lemmas for the parser claims -/

theorem titleIdAt_occurs (s id : List Char) (h : titleIdAt s = some id) :
    id ≠ [] ∧ id <:+: s := by
  unfold titleIdAt at h
  cases h1 : dropLiteral "title/".data s with
  | none => simp only [h1] at h; cases h
  | some s1 =>
    simp only [h1] at h
    cases h2 : dropLiteral "tt".data s1 with
    | none => simp only [h2] at h; cases h
    | some r =>
      simp only [h2] at h
      rcases r with _ | ⟨d, rest⟩
      · cases h
      · by_cases hd : d.isDigit
        · simp [hd] at h
          have hs := dropLiteral_some _ _ _ h1
          have hs1 := dropLiteral_some _ _ _ h2
          subst h
          refine ⟨by simp, ?_⟩
          refine ⟨"title/".data, rest.dropWhile Char.isDigit, ?_⟩
          rw [hs, hs1]
          simp
        · simp [hd] at h

theorem firstTitleId_occurs (s : List Char) :
    ∀ id, firstTitleId s = some id → id ≠ [] ∧ id <:+: s := by
  induction s with
  | nil => intro id h; simp [firstTitleId] at h
  | cons c t ih =>
    intro id h
    cases hat : titleIdAt (c :: t) with
    | some id0 =>
      simp only [firstTitleId, hat] at h
      cases h
      exact titleIdAt_occurs _ _ hat
    | none =>
      simp only [firstTitleId, hat] at h
      obtain ⟨h1, h2⟩ := ih id h
      exact ⟨h1, h2.trans (List.infix_cons (List.infix_refl t))⟩

theorem ParseMedia_ok_fields (f : Fragment) (b : Bool) (m : Media)
    (h : ParseMedia f b = .ok m) :
    firstTitleId f.absoluteURL.data = some m.Id.data ∧ m.Url = f.absoluteURL ∧
    m.Title = f.title ∧
    m.Year = (getFirstNumberFromText f.yearText).1.toInt ∧
    m.Rank = (getFirstNumberFromText f.rankText).1.toInt ∧
    m.Rating = (getFirstNumberFromText f.ratingText).1 ∧
    (getFirstNumberFromText f.yearText).2 = none ∧
    (getFirstNumberFromText f.ratingText).2 = none ∧
    f.href ≠ "" := by
  rw [ParseMedia_eq] at h
  split at h
  · cases h
  · by_cases hh : f.href = ""
    · simp [hh] at h
    · simp only [if_neg hh] at h
      cases hid : firstTitleId f.absoluteURL.data with
      | none => simp [hid] at h
      | some id =>
        simp only [hid] at h
        cases hy : (getFirstNumberFromText f.yearText).2 with
        | some e => simp [hy] at h
        | none =>
          simp only [hy] at h
          cases hr : (getFirstNumberFromText f.ratingText).2 with
          | some e => simp [hr] at h
          | none =>
            simp only [hr] at h
            cases h
            exact ⟨rfl, rfl, rfl, rfl, rfl, rfl, rfl, rfl, hh⟩

theorem ParseMedia_ok_of (f : Fragment) (b : Bool) (id : List Char)
    (hrank : b = false ∨ (getFirstNumberFromText f.rankText).2 = none)
    (hh : f.href ≠ "") (hid : firstTitleId f.absoluteURL.data = some id)
    (hy : (getFirstNumberFromText f.yearText).2 = none)
    (hr : (getFirstNumberFromText f.ratingText).2 = none) :
    ∃ m, ParseMedia f b = .ok m ∧ m.Id = String.mk id := by
  rw [ParseMedia_eq]
  rcases hrank with hb | hk
  · subst hb
    cases hk : (getFirstNumberFromText f.rankText).2 with
    | none =>
      simp only [if_neg hh, hid, hy, hr]
      exact ⟨_, rfl, rfl⟩
    | some e =>
      simp only [if_neg hh, hid, hy, hr]
      exact ⟨_, rfl, rfl⟩
  · simp only [hk, if_neg hh, hid, hy, hr]
    exact ⟨_, rfl, rfl⟩

theorem ParseMedia_missing_id (f : Fragment) (b : Bool)
    (hrank : b = false ∨ (getFirstNumberFromText f.rankText).2 = none)
    (hh : f.href ≠ "") (hid : firstTitleId f.absoluteURL.data = none) :
    ParseMedia f b = .error (.couldNotFetchId f.absoluteURL) := by
  rw [ParseMedia_eq]
  rcases hrank with hb | hk
  · subst hb
    cases hk : (getFirstNumberFromText f.rankText).2 with
    | none => simp only [if_neg hh, hid]
    | some e => simp only [if_neg hh, hid]
  · simp only [hk, if_neg hh, hid]

theorem ParseMedia_rank_error (f : Fragment) (b : Bool) (e : NumError)
    (h : ParseMedia f b = .error (.failedToParseRank e)) :
    b = true ∧ (getFirstNumberFromText f.rankText).2 = some e := by
  rw [ParseMedia_eq] at h
  split at h
  · rename_i err heq
    cases h
    exact ⟨rfl, heq⟩
  · exfalso
    by_cases hh : f.href = ""
    · simp [hh] at h
    · simp only [if_neg hh] at h
      cases hid : firstTitleId f.absoluteURL.data with
      | none => simp [hid] at h
      | some id =>
        simp only [hid] at h
        cases hy : (getFirstNumberFromText f.yearText).2 with
        | some e => simp [hy] at h
        | none =>
          simp only [hy] at h
          cases hr : (getFirstNumberFromText f.ratingText).2 with
          | some e => simp [hr] at h
          | none => simp [hr] at h

theorem ParseMedia_year_error (f : Fragment) (b : Bool) (e : NumError)
    (h : ParseMedia f b = .error (.failedToParseYear e)) :
    (getFirstNumberFromText f.yearText).2 = some e := by
  rw [ParseMedia_eq] at h
  split at h
  · cases h
  · by_cases hh : f.href = ""
    · simp [hh] at h
    · simp only [if_neg hh] at h
      cases hid : firstTitleId f.absoluteURL.data with
      | none => simp [hid] at h
      | some id =>
        simp only [hid] at h
        cases hy : (getFirstNumberFromText f.yearText).2 with
        | some e1 =>
          simp only [hy] at h
          cases h
          rfl
        | none =>
          simp only [hy] at h
          cases hr : (getFirstNumberFromText f.ratingText).2 with
          | some e => simp [hr] at h
          | none => simp [hr] at h

theorem no_number_no_error (text : String) (h : leftmostNumber text.data = none) :
    getFirstNumberFromText text = (F64.negOne, none) := by
  rw [getFirstNumberFromText_value, h]

/-! ## Scraping, resolving and parsing: the claims -/

theorem scrapeItem_foldl (items : List Fragment) :
    ∀ acc, items.foldl scrapeItem acc =
      acc ++ items.map fun f => (ParseMedia f true).toOption := by
  induction items with
  | nil => intro acc; simp
  | cons f rest ih =>
    intro acc
    rw [List.foldl_cons, ih]
    unfold scrapeItem
    cases hp : ParseMedia f true with
    | error e => simp [Except.toOption, hp]
    | ok m => simp [Except.toOption, hp]

theorem scrapeList_foldl (page : ListingPage) :
    ∀ acc, page.foldl scrapeList acc =
      acc ++ page.flatten.map fun f => (ParseMedia f true).toOption := by
  induction page with
  | nil => intro acc; simp
  | cons l rest ih =>
    intro acc
    rw [List.foldl_cons, ih]
    unfold scrapeList
    rw [scrapeItem_foldl]
    simp

/-- C9: `getFirstNumberFromText` returns the value of the leftmost run `digits[.digits]`,
taken as long as possible where it starts: the binary64 number nearest to the decimal
value of the run, as `strconv.ParseFloat` computes it (with its range error for a run
beyond the largest finite binary64 number); for a run without fraction below `2^53` that
is the integer itself, without error. For a text without a digit it returns `-1` and no
error. The three examples: `"#1,234 movies"` gives `1`, `"8.4 rating"` gives
`8.4` (the binary64 number `4728779608739021 * 2^-49`), `""` gives `-1` without error. -/
theorem getFirstNumberFromText_leftmost_run :
    (∀ text : String, getFirstNumberFromText text =
      match leftmostNumber text.data with
      | none => (F64.negOne, none)
      | some p => roundBinary64 (digitsToNat (p.1 ++ p.2)) (10 ^ p.2.length)) ∧
    (∀ text : String, (∀ c ∈ text.data, c.isDigit = false) →
      getFirstNumberFromText text = (F64.negOne, none)) ∧
    (∀ text : String, (∃ c ∈ text.data, c.isDigit = true) →
      ∃ p, leftmostNumber text.data = some p ∧ p.1 ≠ []) ∧
    (∀ (text : String) (ip : List Char), leftmostNumber text.data = some (ip, []) →
      digitsToNat ip < 2 ^ 53 →
      (getFirstNumberFromText text).2 = none ∧
        (getFirstNumberFromText text).1.toInt = digitsToNat ip) ∧
    F64.negOne.toInt = -1 ∧
    leftmostNumber "#1,234 movies".data = some ("1".data, []) ∧
    getFirstNumberFromText "#1,234 movies" = (.fin false (2 ^ 52) (-52), none) ∧
    (F64.fin false (2 ^ 52) (-52)).toInt = 1 ∧
    leftmostNumber "8.4 rating".data = some ("8".data, "4".data) ∧
    getFirstNumberFromText "8.4 rating" = (.fin false 4728779608739021 (-49), none) ∧
    getFirstNumberFromText "" = (F64.negOne, none) := by
  refine ⟨getFirstNumberFromText_value, ?_, ?_, ?_, by decide, by decide, by decide,
    by decide, by decide, by decide, by decide⟩
  · intro text h
    exact no_number_no_error text ((leftmostNumber_none_iff _).2 h)
  · intro text h
    cases hl : leftmostNumber text.data with
    | none =>
      obtain ⟨c, hc, hd⟩ := h
      have := (leftmostNumber_none_iff _).1 hl c hc
      rw [hd] at this
      cases this
    | some p =>
      refine ⟨p, rfl, ?_⟩
      unfold leftmostNumber at hl
      split at hl
      · cases hl
      · rename_i c t heq
        have hc : c.isDigit = true := by
          have := List.head_dropWhile_not (fun c => !c.isDigit) text.data
          simp [heq] at this
          exact this
        cases hl
        simp [numberAt, List.takeWhile, hc]
  · intro text ip hl hlt
    rw [getFirstNumberFromText_value, hl]
    simp only [List.append_nil, List.length_nil, pow_zero]
    exact roundBinary64_small _ hlt

/-- Instance of C9: a text without digit, and the sentinel as an integer. -/
theorem getFirstNumberFromText_leftmost_run_witness :
    getFirstNumberFromText "N/A" = (F64.negOne, none) ∧ F64.negOne.toInt = -1 :=
  ⟨getFirstNumberFromText_leftmost_run.2.1 "N/A" (by decide),
    getFirstNumberFromText_leftmost_run.2.2.2.2.1⟩

/-- C1 (the code departs from the claim): a valid request does not always get one of the
five answers. When the first result of the search page fails to parse,
`GetMediaIdByNameAndYear` crashes (the defect of C5) and the handler writes none of them:
this is shown for the page whose only result is `noLinkItem`, with every catalog, and for
every request on which the resolver crashes; the handler writes nothing exactly then.
Where the resolver returns, the table of the claim holds: resolver not-found gives
404 "media not found"; any other resolver error gives 500 "failed to search for media";
for a resolved identifier, a failed lookup gives 500, lookup `false` gives
404 "media should not be downloaded" and lookup `true` gives 200; the five answers are
pairwise distinct and exactly one of them is written; two requests with the same resolver
and lookup results get the same answer. The page showing `sampleItem`, with its record in
the catalog, gets 200. -/
theorem mediaCheck_no_answer_when_resolver_crashes (web : String → Int → Visit SearchPage)
    (db : Table) (env : QueryEnv) (req : MediaCheckRequest) :
    GetMediaIdByNameAndYear (fun _ _ => Visit.fetched [noLinkItem]) "A" 2020 = .crashed ∧
    (∀ (db0 : Table) (env0 : QueryEnv),
      mediaCheck (fun _ _ => Visit.fetched [noLinkItem]) db0 env0 ⟨"A", 2020⟩ = none) ∧
    (mediaCheck web db env req = none ↔
      GetMediaIdByNameAndYear web req.Title req.Year = .crashed) ∧
    (GetMediaIdByNameAndYear web req.Title req.Year = .error .MediaNotFoundErr →
      mediaCheck web db env req = some ⟨404, "media not found"⟩) ∧
    (∀ e, e ≠ ResolveError.MediaNotFoundErr →
      GetMediaIdByNameAndYear web req.Title req.Year = .error e →
      mediaCheck web db env req = some ⟨500, "failed to search for media"⟩) ∧
    (∀ id, GetMediaIdByNameAndYear web req.Title req.Year = .ok id →
      (∀ e, ShouldMediaBeDownloaded db env id = .error e →
        mediaCheck web db env req =
          some ⟨500, "failed to check if media should be downloaded"⟩) ∧
      (ShouldMediaBeDownloaded db env id = .ok false →
        mediaCheck web db env req = some ⟨404, "media should not be downloaded"⟩) ∧
      (ShouldMediaBeDownloaded db env id = .ok true →
        mediaCheck web db env req = some ⟨200, "media should be downloaded"⟩)) ∧
    (GetMediaIdByNameAndYear web req.Title req.Year ≠ .crashed →
      ∃ resp, mediaCheck web db env req = some resp ∧
        resp ∈ [(⟨404, "media not found"⟩ : Response), ⟨500, "failed to search for media"⟩,
          ⟨500, "failed to check if media should be downloaded"⟩,
          ⟨404, "media should not be downloaded"⟩, ⟨200, "media should be downloaded"⟩]) ∧
    [(⟨404, "media not found"⟩ : Response), ⟨500, "failed to search for media"⟩,
      ⟨500, "failed to check if media should be downloaded"⟩,
      ⟨404, "media should not be downloaded"⟩, ⟨200, "media should be downloaded"⟩].Nodup ∧
    (∀ (web2 : String → Int → Visit SearchPage) (db2 : Table) (env2 : QueryEnv)
        (req2 : MediaCheckRequest),
      GetMediaIdByNameAndYear web2 req2.Title req2.Year =
        GetMediaIdByNameAndYear web req.Title req.Year →
      (∀ id, ShouldMediaBeDownloaded db2 env2 id = ShouldMediaBeDownloaded db env id) →
      mediaCheck web2 db2 env2 req2 = mediaCheck web db env req) ∧
    mediaCheck (fun _ _ => Visit.fetched [sampleItem]) [sampleRecord.toRow 7] calmQuery
      ⟨"A", 2020⟩ = some ⟨200, "media should be downloaded"⟩ := by
  have hbad : GetMediaIdByNameAndYear (fun _ _ => Visit.fetched [noLinkItem]) "A" 2020 =
      .crashed := by decide
  have hsome : GetMediaIdByNameAndYear web req.Title req.Year ≠ .crashed →
      ∃ resp, mediaCheck web db env req = some resp ∧
        resp ∈ [(⟨404, "media not found"⟩ : Response), ⟨500, "failed to search for media"⟩,
          ⟨500, "failed to check if media should be downloaded"⟩,
          ⟨404, "media should not be downloaded"⟩, ⟨200, "media should be downloaded"⟩] := by
    intro h
    unfold mediaCheck mediaCheckWith
    cases hr : GetMediaIdByNameAndYear web req.Title req.Year with
    | crashed => exact absurd hr h
    | error e =>
      cases e with
      | MediaNotFoundErr => exact ⟨_, rfl, by simp⟩
      | couldSearch => exact ⟨_, rfl, by simp⟩
    | ok id =>
      simp only
      cases hs : ShouldMediaBeDownloaded db env id with
      | error e => exact ⟨_, rfl, by simp⟩
      | ok v =>
        cases v with
        | false => exact ⟨_, rfl, by simp⟩
        | true => exact ⟨_, rfl, by simp⟩
  refine ⟨hbad, ?_, ?_, ?_, ?_, ?_, hsome, by decide, ?_, by decide⟩
  · intro db0 env0
    unfold mediaCheck
    rw [show GetMediaIdByNameAndYear (fun _ _ => Visit.fetched [noLinkItem])
      (MediaCheckRequest.mk "A" 2020).Title (MediaCheckRequest.mk "A" 2020).Year =
        .crashed from hbad]
    rfl
  · constructor
    · intro hnone
      by_contra hc
      obtain ⟨resp, hresp, -⟩ := hsome hc
      rw [hresp] at hnone
      cases hnone
    · intro h
      simp [mediaCheck, mediaCheckWith, h]
  · intro h
    simp [mediaCheck, mediaCheckWith, h]
  · intro e he h
    cases e with
    | MediaNotFoundErr => exact absurd rfl he
    | couldSearch => simp [mediaCheck, mediaCheckWith, h]
  · intro id h
    refine ⟨?_, ?_, ?_⟩
    · intro e hs
      simp [mediaCheck, mediaCheckWith, h, hs]
    · intro hs
      simp [mediaCheck, mediaCheckWith, h, hs]
    · intro hs
      simp [mediaCheck, mediaCheckWith, h, hs]
  · intro web2 db2 env2 req2 h1 h2
    have hf : ShouldMediaBeDownloaded db2 env2 = ShouldMediaBeDownloaded db env := funext h2
    unfold mediaCheck
    rw [h1, hf]

theorem foldlM_searchCallback_cons_error (f : Fragment) (rest : List Fragment) (e : ParseError)
    (acc : String) (h : ParseMedia f false = .error e) :
    (f :: rest).foldlM searchCallback acc = none := by
  simp [List.foldlM, searchCallback, h]

/-- C4 (the code departs from the claim): an item whose parse fails is not skipped by
`scrapePopularMedia`; the nil pointer `ParseMedia` returned is appended. For the movies
page with the items `sampleItem` and `noLinkItem` the snapshot is the record of the first
followed by a nil entry; in general the snapshot has one entry for every list item, nil for
each item that failed to parse; and the refresh that receives the nil entry crashes in
`replaceMedia`, leaving the catalog as it was. -/
theorem scrapePopularMedia_keeps_failed_items :
    scrapePopularMedia (.fetched [[sampleItem, noLinkItem]]) (.fetched []) =
      .ok [some sampleRecord, none] ∧
    (∀ p1 p2 : ListingPage, scrapePopularMedia (.fetched p1) (.fetched p2) =
      .ok ((p1.flatten ++ p2.flatten).map fun f => (ParseMedia f true).toOption)) ∧
    RefreshPopularMedia oldCatalog (.fetched [[sampleItem, noLinkItem]]) (.fetched [])
      calmTx = (.crashed, oldCatalog) := by
  refine ⟨by decide, ?_, by decide⟩
  intro p1 p2
  simp [scrapePopularMedia, scrapeList_foldl]

/-- C5 (the code departs from the claim): when parsing the first result item fails,
`GetMediaIdByNameAndYear` does not return `MediaNotFoundErr`; it dereferences the nil
record and crashes. This is shown for the page whose only result is `noLinkItem`, and for
every page whose first selected element fails to parse. The other two parts of the claim
hold: a page without result item gives `MediaNotFoundErr`, and a page whose only selected
element parses gives its identifier. -/
theorem GetMediaIdByNameAndYear_crashes_on_parse_failure :
    GetMediaIdByNameAndYear (fun _ _ => Visit.fetched [noLinkItem]) "A" 2020 = .crashed ∧
    (∀ (web : String → Int → Visit SearchPage) (name : String) (year : Int) (f : Fragment)
        (rest : List Fragment) (e : ParseError),
      web name year = .fetched (f :: rest) → ParseMedia f false = .error e →
      GetMediaIdByNameAndYear web name year = .crashed) ∧
    (∀ (web : String → Int → Visit SearchPage) (name : String) (year : Int),
      web name year = .fetched [] →
      GetMediaIdByNameAndYear web name year = .error .MediaNotFoundErr) ∧
    (∀ (web : String → Int → Visit SearchPage) (name : String) (year : Int) (f : Fragment)
        (m : Media),
      web name year = .fetched [f] → ParseMedia f false = .ok m →
      GetMediaIdByNameAndYear web name year = .ok m.Id) := by
  refine ⟨by decide, ?_, ?_, ?_⟩
  · intro web name year f rest e hw hp
    unfold GetMediaIdByNameAndYear
    rw [hw]
    simp only [foldlM_searchCallback_cons_error f rest e "" hp]
  · intro web name year hw
    unfold GetMediaIdByNameAndYear
    rw [hw]
    simp [List.foldlM]
  · intro web name year f m hw hp
    have hid := (ParseMedia_ok_fields f false m hp).1
    have hne : m.Id ≠ "" := by
      intro h
      have := (firstTitleId_occurs _ _ hid).1
      rw [h] at this
      exact this rfl
    unfold GetMediaIdByNameAndYear
    rw [hw]
    simp [List.foldlM, searchCallback, hp, hne]

/-- C6 (the code departs from the claim): a missing rank label does not make `ParseMedia`
fail when `mustParseRank` is true. For `noRankItem` it returns a record with rank `-1`;
and for every fragment whose rank text has no digit, `ParseMedia` with
`mustParseRank = true` never returns the rank error. -/
theorem ParseMedia_missing_rank_not_rejected :
    ParseMedia noRankItem true = .ok { sampleRecord with Rank := -1 } ∧
    (∀ f : Fragment, (∀ c ∈ f.rankText.data, c.isDigit = false) →
      ∀ e, ParseMedia f true ≠ .error (.failedToParseRank e)) := by
  refine ⟨by decide, ?_⟩
  intro f hf e h
  have h1 := (ParseMedia_rank_error f true e h).2
  rw [no_number_no_error _ ((leftmostNumber_none_iff _).2 hf)] at h1
  cases h1

/-- C7 (the code departs from the claim): a missing year does not make `ParseMedia` fail.
For `noYearItem` it returns a record with year `-1`, for both values of `mustParseRank`;
for every fragment whose year text has no digit, `ParseMedia` never returns the year error
and every record it returns has year `-1`; and a refresh over a page with `noYearItem`
writes the row with year `-1` to the catalog. -/
theorem ParseMedia_missing_year_not_rejected :
    ParseMedia noYearItem true = .ok { sampleRecord with Year := -1 } ∧
    ParseMedia noYearItem false = .ok { sampleRecord with Year := -1 } ∧
    (∀ (f : Fragment) (b : Bool), (∀ c ∈ f.yearText.data, c.isDigit = false) →
      (∀ e, ParseMedia f b ≠ .error (.failedToParseYear e)) ∧
      (∀ m, ParseMedia f b = .ok m → m.Year = -1)) ∧
    RefreshPopularMedia oldCatalog (.fetched [[noYearItem]]) (.fetched []) calmTx =
      (.ok (), [Media.toRow { sampleRecord with Year := -1 } 7]) := by
  refine ⟨by decide, by decide, ?_, by decide⟩
  intro f b hf
  have hnum := no_number_no_error _ ((leftmostNumber_none_iff _).2 hf)
  constructor
  · intro e h
    have h1 := ParseMedia_year_error f b e h
    rw [hnum] at h1
    cases h1
  · intro m h
    have h1 := (ParseMedia_ok_fields f b m h).2.2.2.1
    rw [h1, hnum]
    exact toInt_negOne

/-- C8, as stated, fails: the link of `otherIdItem` contains the segment
`title/nm0000123`, whose identifier token of letters and digits is `nm0000123`, and
`ParseMedia` returns the missing-id error for it instead of a record with that
identifier. -/
theorem ParseMedia_alphanumeric_id_counterexample :
    firstAlnumTitleId otherIdItem.absoluteURL.data = some "nm0000123".data ∧
    ParseMedia otherIdItem true =
      .error (.couldNotFetchId "https://www.imdb.com/title/nm0000123/") ∧
    ParseMedia otherIdItem false =
      .error (.couldNotFetchId "https://www.imdb.com/title/nm0000123/") := by
  refine ⟨by decide, by decide, by decide⟩

/-- C8, amended: the identifier shape is `title/tt<digits>`. Every record `ParseMedia`
returns has the resolved URL as `Url` and, as `Id`, `tt` followed by the digits of the
first place in the URL where `title/tt<digits>` occurs; its `Id` is not empty and occurs in
its `Url`. When the URL has such a place, the link is present and no number is out of range,
`ParseMedia` returns a record with that identifier. When the link is present, the rank
error has not been returned and the URL has no such place, `ParseMedia` fails with the
missing-id error. Example: `https://www.imdb.com/title/tt1234567/` yields `tt1234567`. -/
theorem ParseMedia_id_from_url :
    (∀ (f : Fragment) (b : Bool) (m : Media), ParseMedia f b = .ok m →
      m.Url = f.absoluteURL ∧ firstTitleId m.Url.data = some m.Id.data ∧ m.Id ≠ "" ∧
        m.Id.data <:+: m.Url.data) ∧
    (∀ (f : Fragment) (b : Bool) (id : List Char),
      (b = false ∨ (getFirstNumberFromText f.rankText).2 = none) → f.href ≠ "" →
      firstTitleId f.absoluteURL.data = some id →
      (getFirstNumberFromText f.yearText).2 = none →
      (getFirstNumberFromText f.ratingText).2 = none →
      ∃ m, ParseMedia f b = .ok m ∧ m.Id = String.mk id) ∧
    (∀ (f : Fragment) (b : Bool),
      (b = false ∨ (getFirstNumberFromText f.rankText).2 = none) → f.href ≠ "" →
      firstTitleId f.absoluteURL.data = none →
      ParseMedia f b = .error (.couldNotFetchId f.absoluteURL)) ∧
    firstTitleId "https://www.imdb.com/title/tt1234567/".data = some "tt1234567".data := by
  refine ⟨?_, ?_, ?_, by decide⟩
  · intro f b m h
    obtain ⟨hid, hurl, -⟩ := ParseMedia_ok_fields f b m h
    rw [← hurl] at hid
    obtain ⟨hne, hin⟩ := firstTitleId_occurs _ _ hid
    refine ⟨hurl, hid, ?_, hin⟩
    intro h0
    rw [h0] at hne
    exact hne rfl
  · intro f b id hrank hh hid hy hr
    exact ParseMedia_ok_of f b id hrank hh hid hy hr
  · intro f b hrank hh hid
    exact ParseMedia_missing_id f b hrank hh hid

/-- Instance of the amended C8 at `sampleItem`. -/
theorem ParseMedia_id_from_url_witness :
    ParseMedia sampleItem true = .ok sampleRecord ∧
      (sampleRecord.Url = sampleItem.absoluteURL ∧
        firstTitleId sampleRecord.Url.data = some sampleRecord.Id.data ∧
        sampleRecord.Id ≠ "" ∧ sampleRecord.Id.data <:+: sampleRecord.Url.data) :=
  ⟨by decide, ParseMedia_id_from_url.1 sampleItem true sampleRecord (by decide)⟩

/-! ## The catalog: the claims -/

theorem replaceMedia_unchanged (db : Table) (env : TxEnv) (l : List (Option Media))
    (h : (replaceMedia db env l).1 ≠ .ok ()) : (replaceMedia db env l).2 = db := by
  unfold replaceMedia at h ⊢
  by_cases hb : env.beginFails = true
  · simp [hb]
  · by_cases hd : env.deleteFails = true
    · simp [hb, hd]
    · simp only [hb, hd, if_false] at h ⊢
      cases hi : insertLoop env 0 [] l with
      | error e => rfl
      | crashed => rfl
      | ok t =>
        simp only [hi] at h ⊢
        by_cases hc : env.commitFails = true
        · simp [hc]
        · simp [hc] at h

theorem replaceMedia_ok_iff (db : Table) (env : TxEnv) (l : List (Option Media))
    (t : Table) :
    replaceMedia db env l = (.ok (), t) ↔
      env.beginFails = false ∧ env.deleteFails = false ∧ env.commitFails = false ∧
        insertLoop env 0 [] l = .ok t := by
  unfold replaceMedia
  by_cases hb : env.beginFails = true
  · simp [hb]
  · by_cases hd : env.deleteFails = true
    · simp [hb, hd]
    · have hb' : env.beginFails = false := by simpa using hb
      have hd' : env.deleteFails = false := by simpa using hd
      simp only [hb', hd', Bool.false_eq_true, if_false, true_and]
      cases hi : insertLoop env 0 [] l with
      | error e => simp
      | crashed => simp
      | ok t1 =>
        by_cases hc : env.commitFails = true
        · simp [hc]
        · have hc' : env.commitFails = false := by simpa using hc
          simp [hc']

theorem replaceMedia_records (db : Table) (env : TxEnv) (records : List Media) :
    (((∀ i, i < records.length → env.insertFails i = false) ∧
        (∀ m ∈ records, m.storable) ∧ (records.map Media.Id).Nodup) ∧
        env.beginFails = false ∧ env.deleteFails = false ∧ env.commitFails = false →
      replaceMedia db env (records.map some) = (.ok (), rowsFrom env 0 records)) ∧
    (¬ (((∀ i, i < records.length → env.insertFails i = false) ∧
        (∀ m ∈ records, m.storable) ∧ (records.map Media.Id).Nodup) ∧
        env.beginFails = false ∧ env.deleteFails = false ∧ env.commitFails = false) →
      ∃ e, replaceMedia db env (records.map some) = (.error e, db)) := by
  obtain ⟨h1, h2⟩ := insertLoop_records env records 0 []
  simp only [Nat.zero_add, List.not_mem_nil, false_implies, implies_true, and_true,
    List.nil_append] at h1 h2
  constructor
  · rintro ⟨hrec, hb, hd, hc⟩
    rw [replaceMedia_ok_iff]
    exact ⟨hb, hd, hc, h1 hrec⟩
  · intro hn
    unfold replaceMedia
    by_cases hb : env.beginFails = true
    · exact ⟨.engineFailure, by simp [hb]⟩
    · by_cases hd : env.deleteFails = true
      · exact ⟨.engineFailure, by simp [hb, hd]⟩
      · have hb' : env.beginFails = false := by simpa using hb
        have hd' : env.deleteFails = false := by simpa using hd
        simp only [hb', hd', Bool.false_eq_true, if_false]
        by_cases hrec : (∀ i, i < records.length → env.insertFails i = false) ∧
            (∀ m ∈ records, m.storable) ∧ (records.map Media.Id).Nodup
        · rw [h1 hrec]
          by_cases hc : env.commitFails = true
          · exact ⟨.engineFailure, by simp [hc]⟩
          · have hc' : env.commitFails = false := by simpa using hc
            exact absurd ⟨hrec, hb', hd', hc'⟩ hn
        · obtain ⟨e, he⟩ := h2 hrec
          rw [he]
          exact ⟨e, rfl⟩

theorem lookup_calm (t : Table) (x : String) :
    ShouldMediaBeDownloaded t calmQuery x = .ok (t.any fun r => r.id == x) := by
  simp [ShouldMediaBeDownloaded, calmQuery]

theorem any_id_iff (t : Table) (x : String) :
    (t.any fun r => r.id == x) = true ↔ x ∈ t.map Row.id := by
  simp [List.any_eq_true, List.mem_map]

/-- C2: `replaceMedia` is all-or-nothing. For every prior catalog, every behaviour of the
SQL engine and every list of records: the call returns normally or with an error; if
`Begin`, the `DELETE`, the `INSERT` of some item or `Commit` fails (an `INSERT` fails
when the engine fails on it, when the record violates a constraint of the table or when
its identifier was inserted before), the call returns an error and the catalog afterwards
is the catalog before the call; it returns normally exactly when none of them fails;
whenever it does not return normally the catalog is unchanged, also for a list with nil
entries; when it returns normally the catalog afterwards consists of exactly the rows of
the given records, in order, stamped with the time of their `INSERT`. -/
theorem replaceMedia_all_or_nothing (db : Table) (env : TxEnv) (records : List Media) :
    ((replaceMedia db env (records.map some)).1 = .ok () ∨
      ∃ e, (replaceMedia db env (records.map some)).1 = .error e) ∧
    (env.beginFails = true ∨ env.deleteFails = true ∨
        (∃ k, k < records.length ∧ env.insertFails k = true) ∨
        (∃ m ∈ records, ¬ m.storable) ∨ ¬ (records.map Media.Id).Nodup ∨
        env.commitFails = true →
      ∃ e, replaceMedia db env (records.map some) = (.error e, db)) ∧
    ((replaceMedia db env (records.map some)).1 = .ok () ↔
      env.beginFails = false ∧ env.deleteFails = false ∧
        (∀ i, i < records.length → env.insertFails i = false) ∧
        (∀ m ∈ records, m.storable) ∧ (records.map Media.Id).Nodup ∧
        env.commitFails = false) ∧
    (∀ l : List (Option Media), (replaceMedia db env l).1 ≠ .ok () →
      (replaceMedia db env l).2 = db) ∧
    ((replaceMedia db env (records.map some)).1 = .ok () →
      (replaceMedia db env (records.map some)).2 = rowsFrom env 0 records ∧
      (replaceMedia db env (records.map some)).2.map Row.toMedia = records) := by
  obtain ⟨h1, h2⟩ := replaceMedia_records db env records
  have hfail : env.beginFails = true ∨ env.deleteFails = true ∨
        (∃ k, k < records.length ∧ env.insertFails k = true) ∨
        (∃ m ∈ records, ¬ m.storable) ∨ ¬ (records.map Media.Id).Nodup ∨
        env.commitFails = true →
      ∃ e, replaceMedia db env (records.map some) = (.error e, db) := by
    intro hd
    apply h2
    rintro ⟨⟨c1, c2, c3⟩, c4, c5, c6⟩
    rcases hd with h | h | ⟨k, hk, h⟩ | ⟨m, hm, h⟩ | h | h
    · rw [c4] at h; cases h
    · rw [c5] at h; cases h
    · rw [c1 k hk] at h; cases h
    · exact h (c2 m hm)
    · exact h c3
    · rw [c6] at h; cases h
  by_cases hc : ((∀ i, i < records.length → env.insertFails i = false) ∧
        (∀ m ∈ records, m.storable) ∧ (records.map Media.Id).Nodup) ∧
        env.beginFails = false ∧ env.deleteFails = false ∧ env.commitFails = false
  · have hok := h1 hc
    obtain ⟨⟨c1, c2, c3⟩, c4, c5, c6⟩ := hc
    refine ⟨Or.inl (by rw [hok]), hfail,
      ⟨fun _ => ⟨c4, c5, c1, c2, c3, c6⟩, fun _ => by rw [hok]⟩,
      fun l hl => replaceMedia_unchanged db env l hl, fun _ => ?_⟩
    rw [hok]
    exact ⟨rfl, rowsFrom_toMedia env records 0⟩
  · obtain ⟨e, he⟩ := h2 hc
    refine ⟨Or.inr ⟨e, by rw [he]⟩, hfail, ⟨fun h => ?_, fun h => ?_⟩,
      fun l hl => replaceMedia_unchanged db env l hl, fun h => ?_⟩
    · rw [he] at h; cases h
    · obtain ⟨c4, c5, c1, c2, c3, c6⟩ := h
      exact absurd ⟨⟨c1, c2, c3⟩, c4, c5, c6⟩ hc
    · rw [he] at h; cases h

/-- Instance of C2: the catalog holds `otherRecord`; the `INSERT` of the second of two
records fails in the engine, `replaceMedia` returns an error and the catalog still holds
`otherRecord` only. -/
theorem replaceMedia_all_or_nothing_witness :
    ∃ e, replaceMedia oldCatalog secondInsertFails [some sampleRecord, some sameIdRecord] =
      (.error e, oldCatalog) :=
  (replaceMedia_all_or_nothing oldCatalog secondInsertFails [sampleRecord, sameIdRecord]).2.1
    (Or.inr (Or.inr (Or.inl ⟨1, by decide, rfl⟩)))

theorem replaceMedia_ok_rows (db : Table) (env : TxEnv) (l : List (Option Media))
    (t : Table) (h : replaceMedia db env l = (.ok (), t)) :
    ∃ records : List Media, l = records.map some ∧ t = rowsFrom env 0 records ∧
      (records.map Media.Id).Nodup ∧ ∀ m ∈ records, m.storable := by
  obtain ⟨hb, hd, hc, hi⟩ := (replaceMedia_ok_iff db env l t).1 h
  obtain ⟨records, hr⟩ := insertLoop_ok_records env l 0 [] t hi
  subst hr
  obtain ⟨h1, h2⟩ := insertLoop_records env records 0 []
  by_cases hcond : (∀ i, i < records.length → env.insertFails (0 + i) = false) ∧
      (∀ m ∈ records, m.storable) ∧ (records.map Media.Id).Nodup ∧
      (∀ m ∈ records, ∀ r ∈ ([] : Table), r.id ≠ m.Id)
  · have := h1 hcond
    rw [this] at hi
    cases hi
    exact ⟨records, rfl, by simp, hcond.2.2.1, hcond.2.1⟩
  · obtain ⟨e, he⟩ := h2 hcond
    rw [he] at hi
    cases hi

/-- C3: after `replaceMedia` has returned normally, the lookup (with a working SQL
engine) answers `true` exactly for the identifiers of the given list and `false` for
every other identifier, whatever the catalog held before; the identifiers of the list are
pairwise distinct. In particular after `replaceMedia([R])` the lookup of `R.Id` is `true`
and the lookup of every other identifier is `false`. -/
theorem lookup_after_replaceMedia (db : Table) (env : TxEnv) (l : List (Option Media))
    (t : Table) (h : replaceMedia db env l = (.ok (), t)) :
    (∀ x, ShouldMediaBeDownloaded t calmQuery x = .ok true ↔ ∃ m, some m ∈ l ∧ m.Id = x) ∧
    (∀ x, ShouldMediaBeDownloaded t calmQuery x = .ok false ↔
      ¬ ∃ m, some m ∈ l ∧ m.Id = x) ∧
    (∀ R, l = [some R] → ShouldMediaBeDownloaded t calmQuery R.Id = .ok true ∧
      ∀ x, x ≠ R.Id → ShouldMediaBeDownloaded t calmQuery x = .ok false) ∧
    (∀ x, ∃ v, ShouldMediaBeDownloaded t calmQuery x = .ok v) := by
  obtain ⟨records, hl, ht, -, -⟩ := replaceMedia_ok_rows db env l t h
  have hmem : ∀ x, ((t.any fun r => r.id == x) = true ↔ ∃ m, some m ∈ l ∧ m.Id = x) := by
    intro x
    rw [any_id_iff, ht, rowsFrom_ids, hl]
    simp [List.mem_map]
  have h1 : ∀ x, ShouldMediaBeDownloaded t calmQuery x = .ok true ↔
      ∃ m, some m ∈ l ∧ m.Id = x := by
    intro x
    rw [lookup_calm, ← hmem x]
    constructor
    · intro hx
      cases hx' : (t.any fun r => r.id == x) with
      | true => rfl
      | false => rw [hx'] at hx; cases hx
    · intro hx
      rw [hx]
  have h2 : ∀ x, ShouldMediaBeDownloaded t calmQuery x = .ok false ↔
      ¬ ∃ m, some m ∈ l ∧ m.Id = x := by
    intro x
    rw [lookup_calm, ← hmem x]
    constructor
    · intro hx
      cases hx' : (t.any fun r => r.id == x) with
      | true => rw [hx'] at hx; cases hx
      | false => simp
    · intro hx
      have : (t.any fun r => r.id == x) = false := by simpa using hx
      rw [this]
  refine ⟨h1, h2, ?_, fun x => ⟨_, lookup_calm t x⟩⟩
  intro R hR
  constructor
  · exact (h1 R.Id).2 ⟨R, by simp [hR], rfl⟩
  · intro x hx
    apply (h2 x).2
    rintro ⟨m, hm, he⟩
    rw [hR] at hm
    simp at hm
    subst hm
    exact hx he.symm

/-- Instance of C3: the catalog holds `otherRecord`; after `replaceMedia([sampleRecord])`
the lookup finds `sampleRecord` and no longer finds `otherRecord`. -/
theorem lookup_after_replaceMedia_witness :
    replaceMedia oldCatalog calmTx [some sampleRecord] = (.ok (), [sampleRecord.toRow 7]) ∧
      ShouldMediaBeDownloaded oldCatalog calmQuery "tt7" = .ok true ∧
      ShouldMediaBeDownloaded [sampleRecord.toRow 7] calmQuery "tt1234567" = .ok true ∧
      ShouldMediaBeDownloaded [sampleRecord.toRow 7] calmQuery "tt7" = .ok false :=
  ⟨by decide, by decide,
    ((lookup_after_replaceMedia oldCatalog calmTx [some sampleRecord] [sampleRecord.toRow 7]
      (by decide)).2.2.1 sampleRecord rfl).1,
    ((lookup_after_replaceMedia oldCatalog calmTx [some sampleRecord] [sampleRecord.toRow 7]
      (by decide)).2.2.1 sampleRecord rfl).2 "tt7" (by decide)⟩

/-- C10, as stated, fails: for the snapshot of `sampleRecord` and `sameIdRecord`, which
share the identifier `tt1234567`, `replaceMedia` does not succeed; the second `INSERT`
violates the primary key, the call returns that error and the catalog stays as it was. -/
theorem replaceMedia_duplicate_id_counterexample :
    sampleRecord.Id = sameIdRecord.Id ∧
    replaceMedia oldCatalog calmTx [some sampleRecord, some sameIdRecord] =
      (.error .uniqueViolation, oldCatalog) := by
  refine ⟨by decide, by decide⟩

/-- C10, amended: the catalog never holds two records with one identifier, and a
duplicate identifier in the snapshot makes the write fail. For every prior catalog, every
behaviour of the SQL engine and every snapshot: if two records of the snapshot share an
identifier, `replaceMedia` returns an error and leaves the catalog as it was; if it returns
normally, the identifiers in the catalog afterwards are exactly those of the snapshot,
each once; a catalog without repeated identifier stays so through every call; and with
pairwise distinct identifiers, records that satisfy the constraints of the table and a
working SQL engine, `replaceMedia` returns normally. -/
theorem replaceMedia_one_record_per_id (db : Table) (env : TxEnv) (records : List Media) :
    (¬ (records.map Media.Id).Nodup →
      ∃ e, replaceMedia db env (records.map some) = (.error e, db)) ∧
    ((replaceMedia db env (records.map some)).1 = .ok () →
      (replaceMedia db env (records.map some)).2.map Row.id = records.map Media.Id ∧
      ((replaceMedia db env (records.map some)).2.map Row.id).Nodup) ∧
    (∀ l : List (Option Media), (db.map Row.id).Nodup →
      ((replaceMedia db env l).2.map Row.id).Nodup) ∧
    (env.healthy → (∀ m ∈ records, m.storable) → (records.map Media.Id).Nodup →
      replaceMedia db env (records.map some) = (.ok (), rowsFrom env 0 records)) := by
  obtain ⟨h1, h2⟩ := replaceMedia_records db env records
  refine ⟨?_, ?_, ?_, ?_⟩
  · intro hnd
    exact h2 (fun hc => hnd hc.1.2.2)
  · intro hok
    by_cases hc : ((∀ i, i < records.length → env.insertFails i = false) ∧
        (∀ m ∈ records, m.storable) ∧ (records.map Media.Id).Nodup) ∧
        env.beginFails = false ∧ env.deleteFails = false ∧ env.commitFails = false
    · rw [h1 hc]
      exact ⟨rowsFrom_ids env records 0, by rw [rowsFrom_ids]; exact hc.1.2.2⟩
    · obtain ⟨e, he⟩ := h2 hc
      rw [he] at hok
      cases hok
  · intro l hdb
    by_cases hok : (replaceMedia db env l).1 = .ok ()
    · have hpair : replaceMedia db env l = (.ok (), (replaceMedia db env l).2) := by
        rw [← hok]
      obtain ⟨recs, -, ht, hnd, -⟩ := replaceMedia_ok_rows db env l _ hpair
      rw [ht, rowsFrom_ids]
      exact hnd
    · rw [replaceMedia_unchanged db env l hok]
      exact hdb
  · rintro ⟨hb, hd, hi, hc⟩ hst hnd
    exact h1 ⟨⟨fun i _ => hi i, hst, hnd⟩, hb, hd, hc⟩

/-- Instance of the amended C10: the snapshot of `sampleRecord` and `otherRecord`, with
distinct identifiers, is written, and the snapshot with `sameIdRecord` is refused. -/
theorem replaceMedia_one_record_per_id_witness :
    replaceMedia oldCatalog calmTx [some sampleRecord, some otherRecord] =
        (.ok (), [sampleRecord.toRow 7, otherRecord.toRow 7]) ∧
      ∃ e, replaceMedia oldCatalog calmTx [some sampleRecord, some sameIdRecord] =
        (.error e, oldCatalog) :=
  ⟨(replaceMedia_one_record_per_id oldCatalog calmTx [sampleRecord, otherRecord]).2.2.2
      ⟨rfl, rfl, fun _ => rfl, rfl⟩ (by decide) (by decide),
    (replaceMedia_one_record_per_id oldCatalog calmTx [sampleRecord, sameIdRecord]).1
      (by decide)⟩

end Autobrr
